import Mathlib

/-!
Dominion — verification of the authoritative game-state engine

Shallow embedding of the core of the Dominion repository:
`shared/Territory.js`, `shared/GameState.js`, `shared/MapGenerator.js`,
`shared/AIBot.js`.

Modelling conventions:
* JS numbers that hold troop counts, ids and indices are `ℕ`; map
  coordinates, combat rolls and AI scores are exact rationals `ℚ`
  (the spec states all formulas in exact arithmetic, e.g.
  `⌊n · 0.7⌋`, which over `ℕ` is `7 * n / 10`).
* `Math.random()` draws are passed in explicitly: combat takes the two
  uniform multipliers `u1 u2 : ℚ`, point generation takes a stream
  `ℕ → ℚ × ℚ` of raw draws, the shuffle of starting territories takes
  the shuffled index order, and the AI takes its tie-breaking draw.
* Mutation is explicit state passing: every operation returns the new
  `GameState`.
* A JS expression that would throw (indexing `undefined`) is modelled
  by an `Option` result (`none` = exception); a possibly endless
  `while` loop is modelled with an explicit fuel parameter, so that
  divergence is expressible as `∀ fuel, … = none`.
-/

set_option maxRecDepth 4000

namespace Dominion

/-- A 2-D point with exact rational coordinates (a JS `{x, y}` object). -/
structure Point where
  x : ℚ
  y : ℚ
deriving DecidableEq, Repr

/-- Squared Euclidean distance.  The source computes
`Math.sqrt(dx*dx + dy*dy)` and only ever compares it against nonnegative
thresholds, so we compare squares, which is equivalent and exact over `ℚ`. -/
def distSq (p q : Point) : ℚ :=
  (p.x - q.x) * (p.x - q.x) + (p.y - q.y) * (p.y - q.y)

/-- Source `Territory.js`: one map region. -/
structure Territory where
  id : ℕ
  vertices : List Point
  center : Point
  owner : Option String
  troops : ℕ
  neighbors : List ℕ
deriving DecidableEq, Repr

namespace Territory

/-- Source `Territory.addNeighbor`: push the id unless already present. -/
def addNeighbor (t : Territory) (territoryId : ℕ) : Territory :=
  if territoryId ∈ t.neighbors then t
  else { t with neighbors := t.neighbors ++ [territoryId] }

/-- Source `Territory.isAdjacentTo`: `this.neighbors.includes(territoryId)`. -/
def isAdjacentTo (t : Territory) (territoryId : ℕ) : Bool :=
  t.neighbors.contains territoryId

end Territory

/-- A player record as built by `GameState.initializeGame`. -/
structure Player where
  id : String
  name : String
  color : String
  isAI : Bool
  isAlive : Bool
  territoriesOwned : ℕ
  totalTroops : ℕ
deriving DecidableEq, Repr

/-- The aggregate root of `GameState.js`. -/
structure GameState where
  territories : List Territory
  players : List Player
  currentTurn : ℕ
  turnTimeLimit : ℕ
  turnStartTime : ℕ
  gamePhase : String
  winner : Option Player
  mapWidth : ℚ
  mapHeight : ℚ
  territoryCount : ℕ
  troopGenerationRate : ℕ
deriving DecidableEq, Repr

/-- Result object of `GameState.processAttack`.  On validation failure the
source returns `{success:false, error}` (no other fields), otherwise
`{success:true, conquered, attackerLosses, defenderLosses, fromId, toId}`. -/
inductive AttackResult where
  | invalid (error : String)
  | resolved (conquered : Bool) (attackerLosses defenderLosses : ℕ) (fromId toId : ℕ)
deriving DecidableEq, Repr

/-- Source `result.success`. -/
def AttackResult.success : AttackResult → Bool
  | .invalid _ => false
  | .resolved _ _ _ _ _ => true

namespace GameState

/-- Source `GameState.validateAttack(from, to, playerId)`; the arguments may be
`undefined` (`none`) when the ids do not name territories. -/
def validateAttack (fromT toT : Option Territory) (playerId : String) : Bool :=
  match fromT, toT with
  | some f, some t =>
    if f.owner ≠ some playerId then false
    else if t.owner = some playerId then false
    else if f.troops ≤ 1 then false
    else if ¬ f.isAdjacentTo t.id then false
    else true
  | _, _ => false  -- `if (!from || !to) return false`

/-- Source `GameState.updatePlayerStats`: recompute each player's derived
aggregates from territory ownership. -/
def updatePlayerStats (s : GameState) : GameState :=
  { s with players := s.players.map (fun p =>
      let owned := s.territories.filter (fun t => decide (t.owner = some p.id))
      let ownedCount := owned.length
      { p with
        territoriesOwned := ownedCount
        totalTroops := owned.foldl (fun sum t => sum + t.troops) 0
        isAlive := ownedCount > 0 }) }

/-- Source `GameState.checkWinCondition`: exactly one alive player ends the game
with that player as winner; zero alive players ends it with no winner. -/
def checkWinCondition (s : GameState) : GameState :=
  match s.players.filter (fun p => p.isAlive) with
  | [w] => { s with gamePhase := "ended", winner := some w }
  | [] => { s with gamePhase := "ended", winner := none }
  | _ => s

/-- Source `GameState.processAttack(fromId, toId, playerId)`.

`u1` and `u2` are the two independent uniform multipliers
`0.8 + Math.random() * 0.4` drawn for attacker and defender.
The floors of the source are translated exactly:
`⌊n·0.7⌋ = 7*n/10`, `⌊n·0.6⌋ = 6*n/10`, `⌊n·0.5⌋ = n/2`,
`⌊n·0.3⌋ = 3*n/10` (natural-number division). -/
def processAttack (s : GameState) (fromId toId : ℕ) (playerId : String)
    (u1 u2 : ℚ) : AttackResult × GameState :=
  let fromT := s.territories.get? fromId
  let toT := s.territories.get? toId
  if validateAttack fromT toT playerId then
    match fromT, toT with
    | some f, some t =>
      let attackPower := f.troops - 1   -- keep 1 troop in origin
      let defensePower := t.troops
      let attackRoll : ℚ := (attackPower : ℚ) * u1
      let defenseRoll : ℚ := (defensePower : ℚ) * u2
      if attackRoll > defenseRoll then
        -- attacker wins
        let troopsToMove := 7 * f.troops / 10
        let survivingTroops := max 1 (6 * troopsToMove / 10)
        let ts := (s.territories.set fromId { f with troops := f.troops - troopsToMove }).set
          toId { t with owner := f.owner, troops := survivingTroops }
        let s2 := checkWinCondition (updatePlayerStats { s with territories := ts })
        (.resolved true (troopsToMove - survivingTroops) defensePower fromId toId, s2)
      else
        -- defender wins
        let attackerLosses := attackPower / 2
        let defenderLosses := 3 * defensePower / 10
        let ts := (s.territories.set fromId { f with troops := f.troops - attackerLosses }).set
          toId { t with troops := max 1 (t.troops - defenderLosses) }
        let s2 := checkWinCondition (updatePlayerStats { s with territories := ts })
        (.resolved false attackerLosses defenderLosses fromId toId, s2)
    | _, _ => (.invalid "Invalid attack", s)  -- unreachable: validateAttack is false
  else (.invalid "Invalid attack", s)

/-- Source `GameState.generateTroops`: `+troopGenerationRate` on every owned
territory. -/
def generateTroops (s : GameState) : GameState :=
  { s with territories := s.territories.map (fun t =>
      if t.owner ≠ none then { t with troops := t.troops + s.troopGenerationRate } else t) }

/-- Source `GameState.getCurrentPlayer`: `players[currentTurn % players.length]`
(`none` when the roster is empty, where JS yields `undefined`). -/
def getCurrentPlayer (s : GameState) : Option Player :=
  s.players.get? (s.currentTurn % s.players.length)

/-- The skip-dead-players loop of `nextTurn`:
`while (!getCurrentPlayer().isAlive && attempts < players.length)`.
The fuel is the remaining number of allowed attempts. -/
def skipDead : ℕ → GameState → GameState
  | 0, s => s
  | fuel + 1, s =>
    match getCurrentPlayer s with
    | some p => if p.isAlive then s else skipDead fuel { s with currentTurn := s.currentTurn + 1 }
    | none => s  -- unreachable when the roster is nonempty

/-- Source `GameState.nextTurn`.  `now` is `Date.now()`.  With an empty roster the
source throws (reads `.isAlive` of `undefined`), modelled as `none`. -/
def nextTurn (now : ℕ) (s : GameState) : Option GameState :=
  if s.players.isEmpty then none
  else
    let s1 := generateTroops { s with currentTurn := s.currentTurn + 1, turnStartTime := now }
    some (updatePlayerStats (skipDead s.players.length s1))

/-- Source `GameState.getPlayerColor`: fixed palette, wrapping. -/
def getPlayerColor (index : ℕ) : String :=
  let colors := ["#FF4444", "#4444FF", "#44FF44", "#FFFF44",
                 "#FF44FF", "#44FFFF", "#FF8844", "#8844FF"]
  colors.getD (index % colors.length) ""

/-- Source `GameState.assignStartingTerritories`.

The source shuffles a copy of the territory array with a random
comparator and then overwrites owner/troops through the shared
references.  `order` is that shuffled sequence, given as the list of
original indices: `shuffled[k] = territories[order[k]]`.  The territory
at original index `j` therefore sits at shuffle position
`order.indexOf j`; positions `[i * perPlayer, (i+1) * perPlayer)` go to
player `i` with 15 troops, the rest become neutral with 5 troops. -/
def assignStartingTerritories (order : List ℕ) (s : GameState) : GameState :=
  let territoriesPerPlayer := s.territories.length / s.players.length / 2
  let assignedCount := min (territoriesPerPlayer * s.players.length) s.territories.length
  let ts := s.territories.enum.map (fun jt =>
    let rank := order.indexOf jt.1
    if rank < assignedCount then
      match s.players.get? (rank / territoriesPerPlayer) with
      | some p => { jt.2 with owner := some p.id, troops := 15 }
      | none => jt.2  -- unreachable: rank < perPlayer * players.length
    else { jt.2 with owner := none, troops := 5 })
  updatePlayerStats { s with territories := ts }

end GameState

/-- The `{id, name, isAI}` records handed to `initializeGame`. -/
structure IncomingPlayer where
  id : String
  name : String
  isAI : Bool
deriving DecidableEq, Repr

/-- Source `Territory.serialize` output: every field of the territory. -/
structure SerializedTerritory where
  id : ℕ
  vertices : List Point
  center : Point
  owner : Option String
  troops : ℕ
  neighbors : List ℕ
deriving DecidableEq, Repr

/-- Source `Territory.prototype.serialize`. -/
def Territory.serialize (t : Territory) : SerializedTerritory :=
  { id := t.id, vertices := t.vertices, center := t.center,
    owner := t.owner, troops := t.troops, neighbors := t.neighbors }

/-- Source `Territory.deserialize` (static). -/
def Territory.deserialize (d : SerializedTerritory) : Territory :=
  { id := d.id, vertices := d.vertices, center := d.center,
    owner := d.owner, troops := d.troops, neighbors := d.neighbors }

/-- The snapshot produced by `GameState.serialize`. -/
structure GameSnapshot where
  territories : List SerializedTerritory
  players : List Player
  currentTurn : ℕ
  turnTimeLimit : ℕ
  turnStartTime : ℕ
  gamePhase : String
  winner : Option Player
  mapWidth : ℚ
  mapHeight : ℚ
deriving DecidableEq, Repr

/-- Source `GameState.prototype.serialize`. -/
def GameState.serialize (s : GameState) : GameSnapshot :=
  { territories := s.territories.map Territory.serialize
    players := s.players
    currentTurn := s.currentTurn
    turnTimeLimit := s.turnTimeLimit
    turnStartTime := s.turnStartTime
    gamePhase := s.gamePhase
    winner := s.winner
    mapWidth := s.mapWidth
    mapHeight := s.mapHeight }

/-- Source `GameState.deserialize` (static): `new GameState()` (so `territoryCount`
and `troopGenerationRate` keep their constructor defaults 60 and 1, which
are not part of the snapshot) followed by field assignments. -/
def GameState.deserialize (d : GameSnapshot) : GameState :=
  { territories := d.territories.map Territory.deserialize
    players := d.players
    currentTurn := d.currentTurn
    turnTimeLimit := d.turnTimeLimit
    turnStartTime := d.turnStartTime
    gamePhase := d.gamePhase
    winner := d.winner
    mapWidth := d.mapWidth
    mapHeight := d.mapHeight
    territoryCount := 60
    troopGenerationRate := 1 }

/-! ## MapGenerator (`shared/MapGenerator.js`) -/

namespace MapGenerator

/-- Square of `minDistance = Math.sqrt((width*height)/count) * 0.7`. -/
def minDistSq (count : ℕ) (width height : ℚ) : ℚ :=
  (width * height / count) * (49 / 100)

/-- One `while (points.length < count)` loop of `generatePoints`, with
explicit fuel (the source has NO retry cap: `maxAttempts = 30` is declared
but never used, so the loop can run forever; divergence is `∀ fuel, none`).
`stream k` is the `k`-th pair of `Math.random()` draws. -/
def generatePointsGo (count : ℕ) (width height : ℚ) (stream : ℕ → ℚ × ℚ) :
    ℕ → ℕ → List Point → Option (List Point)
  | 0, _, acc => if acc.length < count then none else some acc
  | fuel + 1, k, acc =>
    if acc.length < count then
      let p : Point := ⟨(stream k).1 * width, (stream k).2 * height⟩
      -- valid ⟺ no existing point at distance < minDistance
      let valid := acc.all (fun q => ¬ (distSq p q < minDistSq count width height))
      if valid || acc.isEmpty then
        generatePointsGo count width height stream fuel (k + 1) (acc ++ [p])
      else
        generatePointsGo count width height stream fuel (k + 1) acc
    else some acc

/-- Source `MapGenerator.generatePoints(count, width, height)` driven by a random
stream, with fuel bounding the number of loop iterations. -/
def generatePoints (fuel : ℕ) (stream : ℕ → ℚ × ℚ) (count : ℕ)
    (width height : ℚ) : Option (List Point) :=
  generatePointsGo count width height stream fuel 0 []

/-- The inner scan of `createTerritories`: index of the closest seed point
(`closestIdx = 0`, `closestDist = Infinity`, strict `<` update, so the
earliest minimiser wins).  Distances are already squared in the source. -/
def closestPointIdx (points : List Point) (c : Point) : ℕ :=
  (points.enum.foldl (fun acc ip =>
      let d := distSq ip.2 c
      match acc.2 with
      | none => (ip.1, some d)          -- anything beats Infinity
      | some bd => if d < bd then (ip.1, some d) else acc)
    ((0, none) : ℕ × Option ℚ)).1

/-- Source `grid[y][x]`: owner of the grid cell with centre
`(x*gridSize + gridSize/2, y*gridSize + gridSize/2)`, `gridSize = 10`. -/
def gridOwner (points : List Point) (x y : ℕ) : ℕ :=
  closestPointIdx points ⟨10 * (x : ℚ) + 5, 10 * (y : ℚ) + 5⟩

/-- Source `MapGenerator.crossProduct(o, a, b)`. -/
def crossProduct (o a b : Point) : ℚ :=
  (a.x - o.x) * (b.y - o.y) - (a.y - o.y) * (b.x - o.x)

/-- The polar-angle comparator of the Graham scan.  The source sorts by
`Math.atan2(p.y - start.y, p.x - start.x)`.  Every candidate lies weakly
above and never directly left of the pivot (the pivot is the
lowest-then-leftmost point), so all angles lie in `[0, π)` and
`angle a ≤ angle b ⟺ cross(start, a, b) ≥ 0` — an exact rational
rendering of the floating-point angle comparison. -/
def polarLE (start a b : Point) : Bool :=
  decide (0 ≤ crossProduct start a b)

/-- The pop loop of the Graham scan:
`while (hull.length > 1 && cross(hull[-2], hull[-1], p) <= 0) hull.pop()`.
The stack is kept reversed (head = top of hull). -/
def scanPop (p : Point) : List Point → List Point
  | a :: b :: rest => if crossProduct b a p ≤ 0 then scanPop p (b :: rest) else a :: b :: rest
  | l => l

/-- Index of the bottom-most (then left-most) point. -/
def lowestIdx (points : List Point) : ℕ :=
  (points.enum.foldl (fun acc ip =>
      if ip.2.y < acc.2.y ∨ (ip.2.y = acc.2.y ∧ ip.2.x < acc.2.x) then ip else acc)
    ((0, points.headD ⟨0, 0⟩) : ℕ × Point)).1

/-- Source `MapGenerator.convexHull` (Graham scan). -/
def convexHull (points : List Point) : List Point :=
  if points.length < 3 then points
  else
    let start := lowestIdx points
    match points.get? start with
    | none => points  -- unreachable: points is nonempty
    | some startPoint =>
      -- `points.filter((_, i) => i !== start)` then sort by polar angle
      let sorted := (points.eraseIdx start).mergeSort (polarLE startPoint)
      match sorted with
      | [] => [startPoint]  -- unreachable: points.length ≥ 3
      | s0 :: rest =>
        ((rest.foldl (fun hull p => p :: scanPop p hull) [s0, startPoint])).reverse

/-- The edge-cell collection loop of `extractBoundary`: all grid cells of
`territoryId` that touch the grid border or a differently-owned cell, as
vertex points `(x*gridSize, y*gridSize)`. -/
def boundaryVertices (points : List Point) (territoryId : ℕ) (cols rows : ℕ) :
    List Point :=
  (List.range rows).flatMap (fun y =>
    (List.range cols).filterMap (fun x =>
      if gridOwner points x y = territoryId then
        -- disjuncts in source order; `||` short-circuits exactly as JS does
        let isEdge := (x == 0) || (x == cols - 1) || (y == 0) || (y == rows - 1) ||
          (gridOwner points x (y - 1) != territoryId) ||
          (gridOwner points x (y + 1) != territoryId) ||
          (gridOwner points (x - 1) y != territoryId) ||
          (gridOwner points (x + 1) y != territoryId)
        if isEdge then some ⟨10 * (x : ℚ), 10 * (y : ℚ)⟩ else none
      else none))

/-- Source `MapGenerator.extractBoundary(grid, territoryId, gridSize, cols, rows)`
with `gridSize = 10`; the grid is recomputed cell-wise from the seed
points (the source materialises exactly these values). -/
def extractBoundary (points : List Point) (territoryId : ℕ) (cols rows : ℕ) :
    List Point :=
  let vertices := boundaryVertices points territoryId cols rows
  if vertices.length > 8 then convexHull vertices
  else if vertices.isEmpty then [⟨0, 0⟩, ⟨10, 0⟩, ⟨10, 10⟩, ⟨0, 10⟩]
  else vertices

/-- Source `MapGenerator.createTerritories(points, width, height)`:
`new Territory(i, extractBoundary(...), points[i])` for each seed. -/
def createTerritories (points : List Point) (width height : ℚ) : List Territory :=
  let cols := (Int.ceil (width / 10)).toNat
  let rows := (Int.ceil (height / 10)).toNat
  points.enum.map (fun ip =>
    { id := ip.1, vertices := extractBoundary points ip.1 cols rows,
      center := ip.2, owner := none, troops := 10, neighbors := [] })

/-- Apply `f` to the element at index `i` (no-op out of range); models a
mutation of `territories[i]` in place. -/
def modifyAt (L : List Territory) (i : ℕ) (f : Territory → Territory) :
    List Territory :=
  match L.get? i with
  | some t => L.set i (f t)
  | none => L

/-- Source `territories[i].addNeighbor(nid)`. -/
def addNeighborAt (L : List Territory) (i : ℕ) (nid : ℕ) : List Territory :=
  modifyAt L i (fun t => t.addNeighbor nid)

/-- The index pairs `(i, j)` with `i < j < n`, in the order of the nested
loops of `calculateNeighbors`. -/
def pairsList (n : ℕ) : List (ℕ × ℕ) :=
  (List.range n).flatMap (fun i => (List.range' (i + 1) (n - (i + 1))).map (fun j => (i, j)))

/-- One step of the first phase of `calculateNeighbors`: connect `i` and
`j` when their centres are within the fixed threshold 150 (squared:
22500). -/
def neighborStep (L : List Territory) (ij : ℕ × ℕ) : List Territory :=
  match L.get? ij.1, L.get? ij.2 with
  | some ti, some tj =>
    if distSq ti.center tj.center < 22500 then
      addNeighborAt (addNeighborAt L ij.1 tj.id) ij.2 ti.id
    else L
  | _, _ => L

/-- The closest-other-territory scan of the fallback phase
(`closestId = null`, `closestDist = Infinity`, skip `other.id === id`). -/
def findClosest (L : List Territory) (t : Territory) : Option ℕ :=
  (L.foldl (fun acc other =>
      if other.id ≠ t.id then
        match acc with
        | none => some (other.id, distSq t.center other.center)
        | some best =>
          if distSq t.center other.center < best.2 then
            some (other.id, distSq t.center other.center)
          else acc
      else acc)
    (none : Option (ℕ × ℚ))).map (fun best => best.1)

/-- One step of the fallback phase: force-connect a neighbourless
territory to its closest other territory (both directions). -/
def fallbackStep (L : List Territory) (k : ℕ) : List Territory :=
  match L.get? k with
  | some t =>
    if t.neighbors.isEmpty then
      match findClosest L t with
      | some closestId => addNeighborAt (addNeighborAt L k closestId) closestId t.id
      | none => L
    else L
  | none => L

/-- Source `MapGenerator.calculateNeighbors(territories)`: threshold phase over
all index pairs, then the no-isolated-territory fallback pass. -/
def calculateNeighbors (ts : List Territory) : List Territory :=
  (List.range ts.length).foldl fallbackStep
    ((pairsList ts.length).foldl neighborStep ts)

/-- Source `MapGenerator.generateMap(territoryCount, width, height)`. -/
def generateMap (fuel : ℕ) (stream : ℕ → ℚ × ℚ) (territoryCount : ℕ)
    (width height : ℚ) : Option (List Territory) :=
  (generatePoints fuel stream territoryCount width height).map (fun points =>
    calculateNeighbors (createTerritories points width height))

end MapGenerator

/-- Source `GameState.initializeGame(players)`: build the roster, generate the
map, deal starting territories, enter the playing phase.  `fuel`/`stream`
drive point generation, `order` is the random shuffle, `now` is
`Date.now()`. -/
def GameState.initializeGame (fuel : ℕ) (stream : ℕ → ℚ × ℚ) (order : List ℕ)
    (now : ℕ) (s : GameState) (ps : List IncomingPlayer) : Option GameState :=
  let players := ps.enum.map (fun ip =>
    ({ id := ip.2.id, name := ip.2.name, color := GameState.getPlayerColor ip.1,
       isAI := ip.2.isAI, isAlive := true, territoriesOwned := 0,
       totalTroops := 0 } : Player))
  match MapGenerator.generateMap fuel stream s.territoryCount s.mapWidth s.mapHeight with
  | none => none
  | some ts =>
    let s1 := GameState.assignStartingTerritories order
      { s with players := players, territories := ts }
    some { s1 with gamePhase := "playing", currentTurn := 0, turnStartTime := now }

/-! ## AIBot (`shared/AIBot.js`)

A lookup `gameState.territories[nId]` with an out-of-range id throws in
JS when a field of the result is read; those reads are modelled in the
`Option` monad (`none` = exception). -/

namespace AIBot

/-- Source `AIBot.getAggressiveness` (constructor, from the difficulty string). -/
def getAggressiveness (difficulty : String) : ℚ :=
  if difficulty = "easy" then 3 / 10
  else if difficulty = "hard" then 4 / 5
  else 1 / 2  -- medium (default)

/-- A `{fromId, toId, score}` candidate produced by `makeDecision`. -/
structure ProposedAttack where
  fromId : ℕ
  toId : ℕ
  score : ℚ
deriving DecidableEq, Repr

/-- Factor 5 helper: `from.neighbors.some(nId => territories[nId].owner !== playerId)`
(short-circuits on the first `true`, like `Array.prototype.some`). -/
def anyNeighborNotOwned (ts : List Territory) (playerId : String) :
    List ℕ → Option Bool
  | [] => some false
  | n :: rest =>
    match ts.get? n with
    | some nt =>
      if nt.owner ≠ some playerId then some true
      else anyNeighborNotOwned ts playerId rest
    | none => none

/-- Factor 6 helper: `to.neighbors.filter(nId => territories[nId].owner === playerId).length`
(`filter` visits every element). -/
def countOwnedNeighbors (ts : List Territory) (playerId : String) :
    List ℕ → Option ℕ
  | [] => some 0
  | n :: rest =>
    match ts.get? n with
    | some nt => do
      let c ← countOwnedNeighbors ts playerId rest
      some ((if nt.owner = some playerId then 1 else 0) + c)
    | none => none

/-- Source `AIBot.evaluateAttack(from, to, gameState, playerId)`.
`aggressiveness` is the bot's difficulty-derived constant. -/
def evaluateAttack (fromT toT : Territory) (gameState : GameState)
    (playerId : String) (aggressiveness : ℚ) : Option ℚ := do
  let troopAdvantage : ℚ := (fromT.troops : ℚ) - (toT.troops : ℚ)
  -- factor 1: troop advantage
  let score1 : ℚ := troopAdvantage * 10
  -- factor 2: prefer neutral targets
  let score2 := score1 + (if toT.owner = none then 20 else 0)
  -- factor 3: prefer weaker opponents
  let score3 := score2 + (match toT.owner with
    | some oid =>
      match gameState.players.find? (fun p => decide (p.id = oid)) with
      | some opponent => ((10 : ℚ) - (opponent.territoriesOwned : ℚ)) * 5
      | none => 0
    | none => 0)
  -- factor 4: strategic position
  let score4 := score3 + (toT.neighbors.length : ℚ) * 3
  -- factor 5: weak border territory
  let isBorder ← anyNeighborNotOwned gameState.territories playerId fromT.neighbors
  let score5 := score4 + (if isBorder ∧ fromT.troops < 5 then -30 else 0)
  -- factor 6: consolidation
  let ownedNeighbors ← countOwnedNeighbors gameState.territories playerId toT.neighbors
  let score6 := score5 + (ownedNeighbors : ℚ) * 8
  -- factor 7: aggressiveness damping of risky attacks
  some (if troopAdvantage < 0 then score6 * (1 - aggressiveness) else score6)

/-- The inner loop of `makeDecision` over one owned territory's
neighbours, in order. -/
def collectNeighborAttacks (gameState : GameState) (playerId : String)
    (aggressiveness : ℚ) (t : Territory) : List ℕ → Option (List ProposedAttack)
  | [] => some []
  | n :: rest =>
    match gameState.territories.get? n with
    | none => none  -- JS: `neighbor.owner` throws
    | some neighbor =>
      if neighbor.owner = some playerId then
        collectNeighborAttacks gameState playerId aggressiveness t rest
      else do
        let score ← evaluateAttack t neighbor gameState playerId aggressiveness
        let more ← collectNeighborAttacks gameState playerId aggressiveness t rest
        some ({ fromId := t.id, toId := neighbor.id, score := score } :: more)

/-- The outer loop of `makeDecision`: owned territories with more than one
troop, in order. -/
def collectAttacks (gameState : GameState) (playerId : String)
    (aggressiveness : ℚ) : List Territory → Option (List ProposedAttack)
  | [] => some []
  | t :: rest =>
    if t.troops ≤ 1 then collectAttacks gameState playerId aggressiveness rest
    else do
      let here ← collectNeighborAttacks gameState playerId aggressiveness t t.neighbors
      let more ← collectAttacks gameState playerId aggressiveness rest
      some (here ++ more)

/-- All candidate attacks of `makeDecision`, in source order. -/
def possibleAttacks (gameState : GameState) (playerId : String)
    (aggressiveness : ℚ) : Option (List ProposedAttack) :=
  collectAttacks gameState playerId aggressiveness
    (gameState.territories.filter (fun t => decide (t.owner = some playerId)))

/-- Source `AIBot.makeDecision(gameState, playerId)`.  `r ∈ [0,1)` is the
`Math.random()` draw used by the selection policy; the outer `Option` is
the exception channel, the inner one is the source's `null` ("no move").
(When the random index were somehow out of range, JS would yield
`undefined`, which callers treat like `null`; hence `List.get?`.) -/
def makeDecision (difficulty : String) (r : ℚ) (gameState : GameState)
    (playerId : String) : Option (Option ProposedAttack) :=
  let aggressiveness := getAggressiveness difficulty
  let ownedTerritories := gameState.territories.filter (fun t => decide (t.owner = some playerId))
  if ownedTerritories.isEmpty then some none
  else
    match possibleAttacks gameState playerId aggressiveness with
    | none => none
    | some atks =>
      if atks.isEmpty then some none
      else
        -- sort by score, descending (`(a, b) => b.score - a.score`, stable)
        let sorted := atks.mergeSort (fun a b => decide (b.score ≤ a.score))
        if difficulty = "easy" then
          -- pick uniformly from the top 50%
          let topHalf := sorted.take (max 1 (sorted.length / 2))
          some (topHalf.get? ((r * topHalf.length).floor.toNat))
        else if difficulty = "hard" then
          -- best 80% of the time, else second best (or best if only one)
          if r < 4 / 5 then some (sorted.get? 0)
          else some (sorted.get? (min 1 (sorted.length - 1)))
        else
          -- medium: pick uniformly from the top 30% (⌊n·0.3⌋ = 3n/10)
          let topThird := sorted.take (max 1 (3 * sorted.length / 10))
          some (topThird.get? ((r * topThird.length).floor.toNat))

end AIBot

/-! ## Derived lemmas about the engine -/

namespace GameState

theorem updatePlayerStats_territories (s : GameState) :
    (updatePlayerStats s).territories = s.territories := rfl

theorem updatePlayerStats_gamePhase (s : GameState) :
    (updatePlayerStats s).gamePhase = s.gamePhase := rfl

theorem updatePlayerStats_winner (s : GameState) :
    (updatePlayerStats s).winner = s.winner := rfl

theorem checkWinCondition_territories (s : GameState) :
    (checkWinCondition s).territories = s.territories := by
  unfold checkWinCondition; split <;> rfl

theorem checkWinCondition_players (s : GameState) :
    (checkWinCondition s).players = s.players := by
  unfold checkWinCondition; split <;> rfl

/-- Characterisation of a passing validation. -/
theorem validateAttack_eq_true_iff (fromT toT : Option Territory) (playerId : String) :
    validateAttack fromT toT playerId = true ↔
      ∃ f t, fromT = some f ∧ toT = some t ∧ f.owner = some playerId ∧
        t.owner ≠ some playerId ∧ 1 < f.troops ∧ f.isAdjacentTo t.id = true := by
  cases fromT with
  | none => simp [validateAttack]
  | some f =>
    cases toT with
    | none => simp [validateAttack]
    | some t =>
      constructor
      · intro hv
        replace hv : (if f.owner ≠ some playerId then false
            else if t.owner = some playerId then false
            else if f.troops ≤ 1 then false
            else if ¬ f.isAdjacentTo t.id = true then false else true) = true := hv
        split_ifs at hv with h1 h2 h3 h4
        push_neg at h1
        refine ⟨f, t, rfl, rfl, h1, h2, by omega, by simpa using h4⟩
      · rintro ⟨f2, t2, hf2, ht2, hfo, hto, htr, hadj⟩
        injection hf2 with hf2
        injection ht2 with ht2
        subst hf2; subst ht2
        show (if f.owner ≠ some playerId then false
            else if t.owner = some playerId then false
            else if f.troops ≤ 1 then false
            else if ¬ f.isAdjacentTo t.id = true then false else true) = true
        rw [if_neg (by simp [hfo]), if_neg hto, if_neg (by omega),
          if_neg (by simp [hadj])]

/-- On a passing validation, `processAttack` takes one of the two combat
branches. -/
theorem processAttack_of_valid (s : GameState) (fromId toId : ℕ)
    (playerId : String) (u1 u2 : ℚ) (f t : Territory)
    (hf : s.territories.get? fromId = some f)
    (ht : s.territories.get? toId = some t)
    (hv : validateAttack (s.territories.get? fromId) (s.territories.get? toId) playerId = true) :
    processAttack s fromId toId playerId u1 u2 =
      if ((f.troops - 1 : ℕ) : ℚ) * u1 > (t.troops : ℚ) * u2 then
        (.resolved true (7 * f.troops / 10 - max 1 (6 * (7 * f.troops / 10) / 10))
            t.troops fromId toId,
         checkWinCondition (updatePlayerStats { s with territories :=
           ((s.territories.set fromId { f with troops := f.troops - 7 * f.troops / 10 }).set
             toId { t with owner := f.owner, troops := max 1 (6 * (7 * f.troops / 10) / 10) }) }))
      else
        (.resolved false ((f.troops - 1) / 2) (3 * t.troops / 10) fromId toId,
         checkWinCondition (updatePlayerStats { s with territories :=
           ((s.territories.set fromId { f with troops := f.troops - (f.troops - 1) / 2 }).set
             toId { t with troops := max 1 (t.troops - 3 * t.troops / 10) }) })) := by
  unfold processAttack
  rw [hf, ht] at hv ⊢
  rw [if_pos hv]

end GameState

/-! ## Claim C8 — serialization round-trip -/

theorem serialize_deserialize_territory_map (l : List Territory) :
    (l.map Territory.serialize).map Territory.deserialize = l := by
  induction l with
  | nil => rfl
  | cons t ts ih => simp [ih, Territory.serialize, Territory.deserialize]

/-- C8: for every game state `s`, `deserialize (serialize s)` restores the
territories (hence every owner and troop count), the player roster, the
turn counter and the game phase exactly. -/
theorem serialize_roundtrip (s : GameState) :
    (GameState.deserialize (GameState.serialize s)).territories = s.territories ∧
    (GameState.deserialize (GameState.serialize s)).players = s.players ∧
    (GameState.deserialize (GameState.serialize s)).currentTurn = s.currentTurn ∧
    (GameState.deserialize (GameState.serialize s)).gamePhase = s.gamePhase := by
  refine ⟨?_, rfl, rfl, rfl⟩
  exact serialize_deserialize_territory_map s.territories

section ConcreteEvaluations

/- Batteries marks the rational operations `@[irreducible]`, which blocks
`decide` on concrete states; restore default reducibility locally so the
closed evaluations below can be checked by `decide`. -/
attribute [local semireducible] Rat.mul Rat.add Rat.sub Rat.inv

/-! ## Claim C10 — processAttack never consults gamePhase -/

/-- A finished game: phase `"ended"`, winner already set. -/
def endedGame : GameState where
  territories := [⟨0, [⟨0, 0⟩], ⟨0, 0⟩, some "A", 10, [1]⟩,
                  ⟨1, [⟨1, 1⟩], ⟨3, 0⟩, some "B", 3, [0]⟩]
  players := [⟨"A", "Alice", "#FF4444", false, true, 1, 10⟩,
              ⟨"B", "Bob", "#4444FF", false, true, 1, 3⟩]
  currentTurn := 0
  turnTimeLimit := 45000
  turnStartTime := 0
  gamePhase := "ended"
  winner := none
  mapWidth := 1200
  mapHeight := 800
  territoryCount := 60
  troopGenerationRate := 1

/-- C10: `processAttack` does not consult `gamePhase`: on a state whose
phase is already `"ended"`, a rule-satisfying attack succeeds and mutates
territory ownership and troop counts — the engine never freezes a
finished game. -/
theorem processAttack_ignores_gamePhase :
    endedGame.gamePhase = "ended" ∧
    (GameState.processAttack endedGame 0 1 "A" 1 1).1.success = true ∧
    (GameState.processAttack endedGame 0 1 "A" 1 1).2.territories.map
      (fun t => (t.owner, t.troops)) = [(some "A", 3), (some "A", 4)] ∧
    (GameState.processAttack endedGame 0 1 "A" 1 1).2.territories ≠
      endedGame.territories := by
  decide

/-! ## Claim C2 — failed validation is a strict no-op -/

/-- Claim C2: for every game state and attack request violating any
validation rule — unknown `fromId` or `toId`, `from` not owned by the
player, `to` already owned by the player, `from.troops ≤ 1`, or `from`
not adjacent to `to` — `processAttack` returns `success = false` and the
entire game state is returned unchanged. -/
theorem processAttack_invalid_is_noop
    (s : GameState) (fromId toId : ℕ) (playerId : String) (u1 u2 : ℚ)
    (h : s.territories.get? fromId = none ∨ s.territories.get? toId = none ∨
      (∃ f, s.territories.get? fromId = some f ∧ f.owner ≠ some playerId) ∨
      (∃ t, s.territories.get? toId = some t ∧ t.owner = some playerId) ∨
      (∃ f, s.territories.get? fromId = some f ∧ f.troops ≤ 1) ∨
      (∃ f t, s.territories.get? fromId = some f ∧ s.territories.get? toId = some t ∧
        ¬ f.isAdjacentTo t.id = true)) :
    GameState.processAttack s fromId toId playerId u1 u2 =
      (.invalid "Invalid attack", s) := by
  have hv : GameState.validateAttack (s.territories.get? fromId)
      (s.territories.get? toId) playerId = false := by
    rw [Bool.eq_false_iff]
    intro hvt
    rcases (GameState.validateAttack_eq_true_iff _ _ _).1 hvt with
      ⟨f, t, hf, ht, hfo, hto, htr, hadj⟩
    rcases h with h | h | ⟨f2, hf2, hc⟩ | ⟨t2, ht2, hc⟩ | ⟨f2, hf2, hc⟩ |
      ⟨f2, t2, hf2, ht2, hc⟩
    · rw [h] at hf; exact Option.noConfusion hf
    · rw [h] at ht; exact Option.noConfusion ht
    · rw [hf] at hf2; injection hf2 with he; subst he; exact hc hfo
    · rw [ht] at ht2; injection ht2 with he; subst he; exact hto hc
    · rw [hf] at hf2; injection hf2 with he; subst he; omega
    · rw [hf] at hf2; rw [ht] at ht2
      injection hf2 with he1; injection ht2 with he2
      subst he1; subst he2; exact hc hadj
  simp only [GameState.processAttack]
  rw [hv]
  simp

/-- A state whose only candidate attack violates `from.troops > 1`. -/
def shortTroopState : GameState where
  territories := [⟨0, [⟨0, 0⟩], ⟨0, 0⟩, some "A", 1, [1]⟩,
                  ⟨1, [⟨1, 1⟩], ⟨3, 0⟩, some "B", 3, [0]⟩]
  players := [⟨"A", "Alice", "#FF4444", false, true, 1, 1⟩,
              ⟨"B", "Bob", "#4444FF", false, true, 1, 3⟩]
  currentTurn := 0
  turnTimeLimit := 45000
  turnStartTime := 0
  gamePhase := "playing"
  winner := none
  mapWidth := 1200
  mapHeight := 800
  territoryCount := 60
  troopGenerationRate := 1

theorem processAttack_invalid_is_noop_witness :
    GameState.processAttack shortTroopState 0 1 "A" 1 1 =
      (.invalid "Invalid attack", shortTroopState) :=
  processAttack_invalid_is_noop shortTroopState 0 1 "A" 1 1
    (Or.inr (Or.inr (Or.inr (Or.inr (Or.inl ⟨⟨0, [⟨0, 0⟩], ⟨0, 0⟩, some "A", 1, [1]⟩,
      rfl, by decide⟩)))))

/-! ## Claim C5 — corrected: processAttack never checks whose turn it is -/

/-- Two players, `currentTurn = 0` (so the current player is `"A"`), and a
rule-satisfying attack available to `"B"`. -/
def outOfTurnState : GameState where
  territories := [⟨0, [⟨0, 0⟩], ⟨0, 0⟩, some "A", 3, [1]⟩,
                  ⟨1, [⟨1, 1⟩], ⟨3, 0⟩, some "B", 5, [0]⟩]
  players := [⟨"A", "Alice", "#FF4444", false, true, 1, 3⟩,
              ⟨"B", "Bob", "#4444FF", false, true, 1, 5⟩]
  currentTurn := 0
  turnTimeLimit := 45000
  turnStartTime := 0
  gamePhase := "playing"
  winner := none
  mapWidth := 1200
  mapHeight := 800
  territoryCount := 60
  troopGenerationRate := 1

/-- Refutes claim C5 as stated: the current player is `"A"`, yet `"B"`'s
out-of-turn attack returns `success = true` and mutates the state —
`validateAttack` has no turn check. -/
theorem out_of_turn_attack_succeeds :
    (GameState.getCurrentPlayer outOfTurnState).map Player.id = some "A" ∧
    (GameState.processAttack outOfTurnState 1 0 "B" 1 1).1.success = true ∧
    (GameState.processAttack outOfTurnState 1 0 "B" 1 1).2 ≠ outOfTurnState := by
  decide

/-- Claim C5 (corrected): `processAttack` ignores the turn order.  A
request satisfying the four `validateAttack` rules yields a combat result
(`success = true`) even when the requesting player is not the current
player. -/
theorem processAttack_ignores_turn
    (s : GameState) (fromId toId : ℕ) (playerId : String) (u1 u2 : ℚ)
    (f t : Territory)
    (hf : s.territories.get? fromId = some f)
    (ht : s.territories.get? toId = some t)
    (hown : f.owner = some playerId) (hto : t.owner ≠ some playerId)
    (htr : 1 < f.troops) (hadj : f.isAdjacentTo t.id = true)
    (hturn : ∀ p, GameState.getCurrentPlayer s = some p → p.id ≠ playerId) :
    (GameState.processAttack s fromId toId playerId u1 u2).1.success = true := by
  have hv := (GameState.validateAttack_eq_true_iff (s.territories.get? fromId)
    (s.territories.get? toId) playerId).2 ⟨f, t, hf, ht, hown, hto, htr, hadj⟩
  rw [GameState.processAttack_of_valid s fromId toId playerId u1 u2 f t hf ht hv]
  split_ifs <;> rfl

theorem processAttack_ignores_turn_witness :
    (GameState.processAttack outOfTurnState 1 0 "B" 1 1).1.success = true :=
  processAttack_ignores_turn outOfTurnState 1 0 "B" 1 1
    ⟨1, [⟨1, 1⟩], ⟨3, 0⟩, some "B", 5, [0]⟩ ⟨0, [⟨0, 0⟩], ⟨0, 0⟩, some "A", 3, [1]⟩
    rfl rfl rfl (by decide) (by decide) rfl
    (by intro p hp; injection hp with h; subst h; decide)

/-! ## Claim C1 — combat resolution on a valid attack -/

/-- Claim C1: on a valid attack with uniform multipliers
`u1, u2 ∈ [0.8, 1.2]`, the attack roll is `(fromTroops − 1) · u1` and the
defense roll `toTroops · u2`.  If the attack roll exceeds the defense
roll, `⌊fromTroops · 0.7⌋` troops leave `from`, `to`'s owner becomes the
attacker and its troops become `max 1 ⌊moved · 0.6⌋`, with
`attackerLosses = moved − survivors` and `defenderLosses` the prior
defending troop count; otherwise `from` loses `⌊(fromTroops−1) · 0.5⌋`,
`to` loses `⌊toTroops · 0.3⌋` floored at 1 troop, and ownership is
unchanged.  (Over `ℕ`, `⌊n·0.7⌋ = 7n/10`, `⌊n·0.6⌋ = 6n/10`,
`⌊n·0.5⌋ = n/2`, `⌊n·0.3⌋ = 3n/10`.) -/
theorem processAttack_combat
    (s : GameState) (fromId toId : ℕ) (playerId : String) (u1 u2 : ℚ)
    (f t : Territory)
    (hf : s.territories.get? fromId = some f)
    (ht : s.territories.get? toId = some t)
    (hown : f.owner = some playerId) (hto : t.owner ≠ some playerId)
    (htr : 1 < f.troops) (hadj : f.isAdjacentTo t.id = true)
    (hu1 : 4 / 5 ≤ u1 ∧ u1 ≤ 6 / 5) (hu2 : 4 / 5 ≤ u2 ∧ u2 ≤ 6 / 5) :
    (GameState.processAttack s fromId toId playerId u1 u2).1.success = true ∧
    (if ((f.troops - 1 : ℕ) : ℚ) * u1 > (t.troops : ℚ) * u2 then
      (GameState.processAttack s fromId toId playerId u1 u2).1 =
        .resolved true (7 * f.troops / 10 - max 1 (6 * (7 * f.troops / 10) / 10))
          t.troops fromId toId ∧
      (GameState.processAttack s fromId toId playerId u1 u2).2.territories.get? fromId =
        some { f with troops := f.troops - 7 * f.troops / 10 } ∧
      (GameState.processAttack s fromId toId playerId u1 u2).2.territories.get? toId =
        some { t with owner := some playerId, troops := max 1 (6 * (7 * f.troops / 10) / 10) }
    else
      (GameState.processAttack s fromId toId playerId u1 u2).1 =
        .resolved false ((f.troops - 1) / 2) (3 * t.troops / 10) fromId toId ∧
      (GameState.processAttack s fromId toId playerId u1 u2).2.territories.get? fromId =
        some { f with troops := f.troops - (f.troops - 1) / 2 } ∧
      (GameState.processAttack s fromId toId playerId u1 u2).2.territories.get? toId =
        some { t with troops := max 1 (t.troops - 3 * t.troops / 10) }) := by
  have hv := (GameState.validateAttack_eq_true_iff (s.territories.get? fromId)
    (s.territories.get? toId) playerId).2 ⟨f, t, hf, ht, hown, hto, htr, hadj⟩
  have hne : toId ≠ fromId := by
    intro he; subst he; rw [hf] at ht
    injection ht with he2; rw [← he2] at hto; exact hto hown
  have hlf : fromId < s.territories.length := by
    rcases List.get?_eq_some.1 hf with ⟨hl, -⟩; exact hl
  have hlt : toId < s.territories.length := by
    rcases List.get?_eq_some.1 ht with ⟨hl, -⟩; exact hl
  rw [GameState.processAttack_of_valid s fromId toId playerId u1 u2 f t hf ht hv]
  by_cases hc : ((f.troops - 1 : ℕ) : ℚ) * u1 > (t.troops : ℚ) * u2
  · simp only [if_pos hc, GameState.checkWinCondition_territories,
      GameState.updatePlayerStats_territories]
    refine ⟨by trivial, by trivial, ?_, ?_⟩
    · rw [List.get?_set_ne _ _ hne, List.get?_set_eq_of_lt _ hlf]
    · rw [List.get?_set_eq_of_lt]
      rw [hown]
      rw [List.length_set]; exact hlt
  · simp only [if_neg hc, GameState.checkWinCondition_territories,
      GameState.updatePlayerStats_territories]
    refine ⟨by trivial, by trivial, ?_, ?_⟩
    · rw [List.get?_set_ne _ _ hne, List.get?_set_eq_of_lt _ hlf]
    · rw [List.get?_set_eq_of_lt]
      rw [List.length_set]; exact hlt

/-- Attacker with 10 troops versus defender with 3 troops. -/
def combatExampleState : GameState where
  territories := [⟨0, [⟨0, 0⟩], ⟨0, 0⟩, some "A", 10, [1]⟩,
                  ⟨1, [⟨1, 1⟩], ⟨3, 0⟩, some "B", 3, [0]⟩]
  players := [⟨"A", "Alice", "#FF4444", false, true, 1, 10⟩,
              ⟨"B", "Bob", "#4444FF", false, true, 1, 3⟩]
  currentTurn := 0
  turnTimeLimit := 45000
  turnStartTime := 0
  gamePhase := "playing"
  winner := none
  mapWidth := 1200
  mapHeight := 800
  territoryCount := 60
  troopGenerationRate := 1

theorem processAttack_combat_witness :
    ((4 : ℚ) / 5 ≤ 1 ∧ (1 : ℚ) ≤ 6 / 5) ∧
    (GameState.processAttack combatExampleState 0 1 "A" 1 1).1.success = true ∧
    (GameState.processAttack combatExampleState 0 1 "A" 1 1).1 =
      .resolved true 3 3 0 1 :=
  ⟨⟨by norm_num, by norm_num⟩,
   (processAttack_combat combatExampleState 0 1 "A" 1 1
     ⟨0, [⟨0, 0⟩], ⟨0, 0⟩, some "A", 10, [1]⟩ ⟨1, [⟨1, 1⟩], ⟨3, 0⟩, some "B", 3, [0]⟩
     rfl rfl rfl (by decide) (by decide) rfl
     ⟨by norm_num, by norm_num⟩ ⟨by norm_num, by norm_num⟩).1,
   by decide⟩

/-! ## Claim C7 — code bug: the retry cap does not exist -/

/-- A random stream that keeps producing the same draw
(`Math.random()` returning `0.5` forever). -/
def constHalfStream : ℕ → ℚ × ℚ := fun _ => (1 / 2, 1 / 2)

theorem generatePointsGo_stuck (fuel : ℕ) : ∀ k,
    MapGenerator.generatePointsGo 2 10 10 constHalfStream fuel k
      [⟨5, 5⟩] = none := by
  induction fuel with
  | zero => intro k; rfl
  | succ n ih =>
    intro k
    have hstep : MapGenerator.generatePointsGo 2 10 10 constHalfStream (n + 1) k
        [⟨5, 5⟩] = MapGenerator.generatePointsGo 2 10 10 constHalfStream n (k + 1)
        [⟨5, 5⟩] := by
      conv_lhs => rw [MapGenerator.generatePointsGo]
      norm_num [constHalfStream, MapGenerator.minDistSq, distSq]
    rw [hstep]; exact ih (k + 1)

/-- Claim C7 (code bug): `generatePoints` does NOT terminate for every
configuration.  The source declares `maxAttempts = 30` but never uses it,
so a draw that is forever within `minDistance` of an accepted point is
rejected forever: with `count = 2` on a 10×10 map and every draw equal to
`0.5`, no fuel bound suffices — the JS loop runs forever instead of
accepting a possibly-too-close point after 30 attempts. -/
theorem generatePoints_never_terminates :
    ∀ fuel, MapGenerator.generatePoints fuel constHalfStream 2 10 10 = none := by
  intro fuel
  cases fuel with
  | zero => rfl
  | succ n =>
    have h0 : MapGenerator.generatePoints (n + 1) constHalfStream 2 10 10 =
        MapGenerator.generatePointsGo 2 10 10 constHalfStream n 1 [⟨5, 5⟩] := by
      show MapGenerator.generatePointsGo 2 10 10 constHalfStream (n + 1) 0 [] =
        MapGenerator.generatePointsGo 2 10 10 constHalfStream n 1 [⟨5, 5⟩]
      conv_lhs => rw [MapGenerator.generatePointsGo]
      norm_num [constHalfStream, MapGenerator.minDistSq, distSq]
    rw [h0]; exact generatePointsGo_stuck n 1

/-! ## Claim C3 — corrected: player aggregates after each operation -/

/-- The per-player aggregate invariant recomputed by `updatePlayerStats`:
`territoriesOwned` counts the territories owned by the player and
`totalTroops` sums their troops. -/
def playerStatsConsistent (s : GameState) : Prop :=
  ∀ p ∈ s.players,
    p.territoriesOwned =
      (s.territories.filter (fun t => decide (t.owner = some p.id))).length ∧
    p.totalTroops =
      ((s.territories.filter (fun t => decide (t.owner = some p.id))).map
        Territory.troops).sum

/-- Territories owned by some rostered player (neutral territories are
excluded). -/
def ownedByRoster (s : GameState) : List Territory :=
  s.territories.filter (fun t => s.players.any (fun p => decide (t.owner = some p.id)))

theorem foldl_add_troops (l : List Territory) (n : ℕ) :
    l.foldl (fun sum t => sum + t.troops) n = n + (l.map Territory.troops).sum := by
  induction l generalizing n with
  | nil => simp
  | cons t ts ih => simp [ih]; omega

theorem updatePlayerStats_consistent (s : GameState) :
    playerStatsConsistent (GameState.updatePlayerStats s) := by
  intro p hp
  rcases List.mem_map.1 hp with ⟨q, hq, rfl⟩
  refine ⟨rfl, ?_⟩
  rw [GameState.updatePlayerStats_territories]
  simpa using foldl_add_troops
    (s.territories.filter (fun t => decide (t.owner = some q.id))) 0

theorem statsConsistent_congr (s s2 : GameState)
    (hp : s2.players = s.players) (ht : s2.territories = s.territories)
    (h : playerStatsConsistent s) : playerStatsConsistent s2 := by
  intro p hps2
  rw [hp] at hps2
  rw [ht]
  exact h p hps2

theorem length_filter_or (l : List Territory) (f g : Territory → Bool)
    (hdis : ∀ a ∈ l, ¬(f a = true ∧ g a = true)) :
    (l.filter (fun a => f a || g a)).length = (l.filter f).length + (l.filter g).length := by
  induction l with
  | nil => rfl
  | cons a l ih =>
    have hd2 : ∀ b ∈ l, ¬(f b = true ∧ g b = true) := fun b hb => hdis b (by simp [hb])
    have hih := ih hd2
    rcases Bool.eq_false_or_eq_true (f a) with hfa | hfa <;>
      rcases Bool.eq_false_or_eq_true (g a) with hga | hga
    · exact absurd ⟨hfa, hga⟩ (hdis a (List.mem_cons_self a l))
    · rw [List.filter_cons, List.filter_cons, List.filter_cons,
        if_pos (by simp [hfa]), if_pos (by simp [hfa]), if_neg (by simp [hga]),
        List.length_cons, List.length_cons, hih]
      omega
    · rw [List.filter_cons, List.filter_cons, List.filter_cons,
        if_pos (by simp [hga]), if_neg (by simp [hfa]), if_pos (by simp [hga]),
        List.length_cons, List.length_cons, hih]
      omega
    · rw [List.filter_cons, List.filter_cons, List.filter_cons,
        if_neg (by simp [hfa, hga]), if_neg (by simp [hfa]), if_neg (by simp [hga]), hih]

theorem sum_owned_counts (ts : List Territory) (ps : List Player)
    (hnd : (ps.map Player.id).Nodup) :
    (ps.map (fun p => (ts.filter (fun t => decide (t.owner = some p.id))).length)).sum =
    (ts.filter (fun t => ps.any (fun p => decide (t.owner = some p.id)))).length := by
  induction ps with
  | nil => simp
  | cons p ps ih =>
    simp only [List.map_cons, List.sum_cons, List.any_cons]
    have hnd2 : (ps.map Player.id).Nodup := (List.nodup_cons.1 hnd).2
    have hnotin : p.id ∉ ps.map Player.id := (List.nodup_cons.1 hnd).1
    have hdis : ∀ a ∈ ts, ¬((decide (a.owner = some p.id)) = true ∧
        (ps.any fun q => decide (a.owner = some q.id)) = true) := by
      rintro a ha ⟨h1, h2⟩
      rw [decide_eq_true_eq] at h1
      rcases List.any_eq_true.1 h2 with ⟨q, hq, hq2⟩
      rw [decide_eq_true_eq] at hq2
      rw [h1] at hq2
      injection hq2 with he
      exact hnotin (he ▸ List.mem_map_of_mem Player.id hq)
    rw [length_filter_or ts _ _ hdis, ← ih hnd2]

/-- Claim C3 (corrected): after `updatePlayerStats` — which concludes
`initializeGame` (via `assignStartingTerritories`), every successful
`processAttack`, and every `nextTurn` — each player's `territoriesOwned`
equals the count of territories whose owner equals that player's id and
`totalTroops` the corresponding troop sum; and, when player ids are
distinct, the sum of `territoriesOwned` over the roster equals the number
of territories owned by SOME rostered player — not the total number of
territories, because neutral (unowned) territories are counted by
nobody. -/
theorem playerStats_after_operations :
    (∀ s, playerStatsConsistent (GameState.updatePlayerStats s)) ∧
    (∀ s fromId toId playerId u1 u2,
      (GameState.processAttack s fromId toId playerId u1 u2).1.success = true →
      playerStatsConsistent (GameState.processAttack s fromId toId playerId u1 u2).2) ∧
    (∀ now s s2, GameState.nextTurn now s = some s2 → playerStatsConsistent s2) ∧
    (∀ order s, playerStatsConsistent (GameState.assignStartingTerritories order s)) ∧
    (∀ fuel stream order now s ps s2,
      GameState.initializeGame fuel stream order now s ps = some s2 →
      playerStatsConsistent s2) ∧
    (∀ s, (s.players.map Player.id).Nodup →
      ((GameState.updatePlayerStats s).players.map Player.territoriesOwned).sum =
        (ownedByRoster s).length) := by
  have hupd := updatePlayerStats_consistent
  have hcw : ∀ s, playerStatsConsistent (GameState.updatePlayerStats s) →
      playerStatsConsistent (GameState.checkWinCondition (GameState.updatePlayerStats s)) :=
    fun s h => statsConsistent_congr _ _ (GameState.checkWinCondition_players _)
      (GameState.checkWinCondition_territories _) h
  refine ⟨hupd, ?_, ?_, ?_, ?_, ?_⟩
  · intro s fromId toId playerId u1 u2 hsucc
    by_cases hv : GameState.validateAttack (s.territories.get? fromId)
        (s.territories.get? toId) playerId = true
    · rcases (GameState.validateAttack_eq_true_iff _ _ _).1 hv with
        ⟨f, t, hf, ht, -, -, -, -⟩
      rw [GameState.processAttack_of_valid s fromId toId playerId u1 u2 f t hf ht hv]
      split_ifs
      · exact hcw _ (hupd _)
      · exact hcw _ (hupd _)
    · exfalso
      rw [Bool.not_eq_true] at hv
      have : GameState.processAttack s fromId toId playerId u1 u2 =
          (.invalid "Invalid attack", s) := by
        simp only [GameState.processAttack]
        rw [hv]
        simp
      rw [this] at hsucc
      exact Bool.noConfusion hsucc
  · intro now s s2 h
    unfold GameState.nextTurn at h
    split_ifs at h
    injection h with h
    exact h ▸ hupd _
  · intro order s
    exact hupd _
  · intro fuel stream order now s ps s2 h
    unfold GameState.initializeGame at h
    set pl := ps.enum.map (fun ip =>
      ({ id := ip.2.id, name := ip.2.name, color := GameState.getPlayerColor ip.1,
         isAI := ip.2.isAI, isAlive := true, territoriesOwned := 0,
         totalTroops := 0 } : Player)) with hpl
    rcases hg : MapGenerator.generateMap fuel stream s.territoryCount s.mapWidth
        s.mapHeight with - | ts
    · rw [hg] at h; exact Option.noConfusion h
    · rw [hg] at h
      injection h with h
      subst h
      exact statsConsistent_congr _ _ rfl rfl (hupd _)
  · intro s hnd
    have hmap : (GameState.updatePlayerStats s).players.map Player.territoriesOwned =
        s.players.map (fun p =>
          (s.territories.filter (fun t => decide (t.owner = some p.id))).length) := by
      show (s.players.map _).map Player.territoriesOwned = _
      rw [List.map_map]
      rfl
    rw [hmap]
    exact sum_owned_counts s.territories s.players hnd

/-- A reachable configuration with a neutral territory: `"A"` owns `t0`,
`"B"` owns `t1`, `t2` is neutral. -/
def neutralTerritoryState : GameState where
  territories := [⟨0, [⟨0, 0⟩], ⟨0, 0⟩, some "A", 5, [1]⟩,
                  ⟨1, [⟨1, 1⟩], ⟨3, 0⟩, some "B", 3, [0]⟩,
                  ⟨2, [⟨2, 2⟩], ⟨6, 0⟩, none, 5, [1]⟩]
  players := [⟨"A", "Alice", "#FF4444", false, true, 1, 5⟩,
              ⟨"B", "Bob", "#4444FF", false, true, 1, 3⟩]
  currentTurn := 0
  turnTimeLimit := 45000
  turnStartTime := 0
  gamePhase := "playing"
  winner := none
  mapWidth := 1200
  mapHeight := 800
  territoryCount := 60
  troopGenerationRate := 1

/-- Refutes claim C3 as stated: after a successful `processAttack` the sum
of `territoriesOwned` over all players is 2, while the total number of
territories is 3 — the neutral territory is counted by nobody. -/
theorem playerStats_sum_cex :
    (GameState.processAttack neutralTerritoryState 0 1 "A" 1 1).1.success = true ∧
    ((GameState.processAttack neutralTerritoryState 0 1 "A" 1 1).2.players.map
      Player.territoriesOwned).sum = 2 ∧
    (GameState.processAttack neutralTerritoryState 0 1 "A" 1 1).2.territories.length
      = 3 := by
  decide

theorem playerStats_after_operations_witness :
    (GameState.processAttack neutralTerritoryState 0 1 "A" 1 1).1.success = true ∧
    playerStatsConsistent (GameState.processAttack neutralTerritoryState 0 1 "A" 1 1).2 :=
  ⟨by decide,
   playerStats_after_operations.2.1 neutralTerritoryState 0 1 "A" 1 1 (by decide)⟩

/-! ## Claim C4 — corrected: the win check runs after attacks, not turns -/

/-- The players that are alive in the sense of the claim: they own at
least one territory. -/
def alivePlayers (s : GameState) : List Player :=
  s.players.filter (fun p => s.territories.any (fun t => decide (t.owner = some p.id)))

/-- Two players; `"B"` owns nothing; the phase is still `"playing"`. -/
def oneAliveState : GameState where
  territories := [⟨0, [⟨0, 0⟩], ⟨0, 0⟩, some "A", 10, [1]⟩]
  players := [⟨"A", "Alice", "#FF4444", false, true, 1, 10⟩,
              ⟨"B", "Bob", "#4444FF", false, false, 0, 0⟩]
  currentTurn := 0
  turnTimeLimit := 45000
  turnStartTime := 0
  gamePhase := "playing"
  winner := none
  mapWidth := 1200
  mapHeight := 800
  territoryCount := 60
  troopGenerationRate := 1

/-- Refutes claim C4 as stated: `nextTurn` never re-evaluates the win
condition — after `nextTurn` exactly one player owns a territory, yet the
phase remains `"playing"` and no winner is set. -/
theorem nextTurn_skips_win_check :
    ((GameState.nextTurn 5 oneAliveState).map GameState.gamePhase) = some "playing" ∧
    ((GameState.nextTurn 5 oneAliveState).map (fun s2 => (alivePlayers s2).length))
      = some 1 ∧
    ((GameState.nextTurn 5 oneAliveState).map GameState.winner) = some none := by
  decide

theorem alivePlayers_congr (s s2 : GameState) (hp : s2.players = s.players)
    (ht : s2.territories = s.territories) : alivePlayers s2 = alivePlayers s := by
  unfold alivePlayers
  rw [hp, ht]

/-- After `updatePlayerStats`, filtering by the recomputed `isAlive` flag
agrees with filtering by actual territory ownership. -/
theorem alive_filter_eq (s : GameState) :
    (GameState.updatePlayerStats s).players.filter (fun p => p.isAlive) =
      alivePlayers (GameState.updatePlayerStats s) := by
  unfold alivePlayers
  apply List.filter_congr
  intro p hp
  rcases List.mem_map.1 hp with ⟨q, hq, rfl⟩
  rw [GameState.updatePlayerStats_territories]
  show decide (0 < (s.territories.filter (fun t => decide (t.owner = some q.id))).length)
      = s.territories.any (fun t => decide (t.owner = some q.id))
  rw [Bool.eq_iff_iff]
  simp only [decide_eq_true_eq, List.any_eq_true, decide_eq_true_eq]
  constructor
  · intro h
    rcases List.length_pos_iff_exists_mem.1 h with ⟨t, ht⟩
    rcases List.mem_filter.1 ht with ⟨ht1, ht2⟩
    exact ⟨t, ht1, by simpa using ht2⟩
  · rintro ⟨t, ht1, ht2⟩
    apply List.length_pos_iff_exists_mem.2
    exact ⟨t, List.mem_filter.2 ⟨ht1, by simpa using ht2⟩⟩

/-- The win check applied to a freshly recomputed state. -/
theorem win_check_core (s3 : GameState) :
    (∀ w, alivePlayers (GameState.checkWinCondition (GameState.updatePlayerStats s3)) = [w] →
      (GameState.checkWinCondition (GameState.updatePlayerStats s3)).gamePhase = "ended" ∧
      (GameState.checkWinCondition (GameState.updatePlayerStats s3)).winner = some w) ∧
    (alivePlayers (GameState.checkWinCondition (GameState.updatePlayerStats s3)) = [] →
      (GameState.checkWinCondition (GameState.updatePlayerStats s3)).gamePhase = "ended" ∧
      (GameState.checkWinCondition (GameState.updatePlayerStats s3)).winner = none) ∧
    (2 ≤ (alivePlayers (GameState.checkWinCondition (GameState.updatePlayerStats s3))).length →
      (GameState.checkWinCondition (GameState.updatePlayerStats s3)).gamePhase = s3.gamePhase ∧
      (GameState.checkWinCondition (GameState.updatePlayerStats s3)).winner = s3.winner) := by
  have halive : alivePlayers (GameState.checkWinCondition (GameState.updatePlayerStats s3)) =
      (GameState.updatePlayerStats s3).players.filter (fun p => p.isAlive) := by
    rw [alivePlayers_congr _ _ (GameState.checkWinCondition_players _)
      (GameState.checkWinCondition_territories _), alive_filter_eq]
  rcases hfa : (GameState.updatePlayerStats s3).players.filter (fun p => p.isAlive)
    with - | ⟨a, - | ⟨b, rest⟩⟩
  · have hcw : GameState.checkWinCondition (GameState.updatePlayerStats s3) =
        { GameState.updatePlayerStats s3 with gamePhase := "ended", winner := none } := by
      unfold GameState.checkWinCondition
      rw [hfa]
    refine ⟨?_, fun _ => ⟨by rw [hcw], by rw [hcw]⟩, ?_⟩
    · intro w hw
      rw [halive, hfa] at hw
      exact List.noConfusion hw
    · intro h2
      rw [halive, hfa] at h2
      simp at h2
  · have hcw : GameState.checkWinCondition (GameState.updatePlayerStats s3) =
        { GameState.updatePlayerStats s3 with gamePhase := "ended", winner := some a } := by
      unfold GameState.checkWinCondition
      rw [hfa]
    refine ⟨?_, ?_, ?_⟩
    · intro w hw
      rw [halive, hfa] at hw
      injection hw with h1 h2
      subst h1
      exact ⟨by rw [hcw], by rw [hcw]⟩
    · intro h0
      rw [halive, hfa] at h0
      exact List.noConfusion h0
    · intro h2
      rw [halive, hfa] at h2
      simp at h2
  · have hcw : GameState.checkWinCondition (GameState.updatePlayerStats s3) =
        GameState.updatePlayerStats s3 := by
      unfold GameState.checkWinCondition
      rw [hfa]
    refine ⟨?_, ?_, fun _ => ⟨by rw [hcw]; rfl, by rw [hcw]; rfl⟩⟩
    · intro w hw
      rw [halive, hfa] at hw
      injection hw with h1 h2
      exact List.noConfusion h2
    · intro h0
      rw [halive, hfa] at h0
      exact List.noConfusion h0

/-- Claim C4 (corrected): the win condition is re-evaluated after every
SUCCESSFUL `processAttack` (but `nextTurn` never re-evaluates it): if
exactly one player owns at least one territory afterwards, the phase is
`"ended"` and the winner is that player; if none does, the phase is
`"ended"` with no winner; with two or more owners alive the win check
leaves phase and winner unchanged. -/
theorem win_check_after_attack
    (s : GameState) (fromId toId : ℕ) (playerId : String) (u1 u2 : ℚ)
    (hsucc : (GameState.processAttack s fromId toId playerId u1 u2).1.success = true) :
    (∀ w, alivePlayers (GameState.processAttack s fromId toId playerId u1 u2).2 = [w] →
      (GameState.processAttack s fromId toId playerId u1 u2).2.gamePhase = "ended" ∧
      (GameState.processAttack s fromId toId playerId u1 u2).2.winner = some w) ∧
    (alivePlayers (GameState.processAttack s fromId toId playerId u1 u2).2 = [] →
      (GameState.processAttack s fromId toId playerId u1 u2).2.gamePhase = "ended" ∧
      (GameState.processAttack s fromId toId playerId u1 u2).2.winner = none) ∧
    (2 ≤ (alivePlayers (GameState.processAttack s fromId toId playerId u1 u2).2).length →
      (GameState.processAttack s fromId toId playerId u1 u2).2.gamePhase = s.gamePhase ∧
      (GameState.processAttack s fromId toId playerId u1 u2).2.winner = s.winner) := by
  by_cases hv : GameState.validateAttack (s.territories.get? fromId)
      (s.territories.get? toId) playerId = true
  · rcases (GameState.validateAttack_eq_true_iff _ _ _).1 hv with
      ⟨f, t, hf, ht, -, -, -, -⟩
    rw [GameState.processAttack_of_valid s fromId toId playerId u1 u2 f t hf ht hv]
    by_cases hc : ((f.troops - 1 : ℕ) : ℚ) * u1 > (t.troops : ℚ) * u2
    · simp only [if_pos hc]
      exact win_check_core _
    · simp only [if_neg hc]
      exact win_check_core _
  · exfalso
    rw [Bool.not_eq_true] at hv
    have hpa : GameState.processAttack s fromId toId playerId u1 u2 =
        (.invalid "Invalid attack", s) := by
      simp only [GameState.processAttack]
      rw [hv]
      simp
    rw [hpa] at hsucc
    exact Bool.noConfusion hsucc

/-- Player `"A"` is one conquest away from eliminating `"B"`. -/
def lastStandState : GameState where
  territories := [⟨0, [⟨0, 0⟩], ⟨0, 0⟩, some "A", 10, [1]⟩,
                  ⟨1, [⟨1, 1⟩], ⟨3, 0⟩, some "B", 3, [0]⟩]
  players := [⟨"A", "Alice", "#FF4444", false, true, 1, 10⟩,
              ⟨"B", "Bob", "#4444FF", false, true, 1, 3⟩]
  currentTurn := 0
  turnTimeLimit := 45000
  turnStartTime := 0
  gamePhase := "playing"
  winner := none
  mapWidth := 1200
  mapHeight := 800
  territoryCount := 60
  troopGenerationRate := 1

theorem win_check_after_attack_witness :
    (GameState.processAttack lastStandState 0 1 "A" 1 1).1.success = true ∧
    (GameState.processAttack lastStandState 0 1 "A" 1 1).2.gamePhase = "ended" ∧
    (GameState.processAttack lastStandState 0 1 "A" 1 1).2.winner =
      some ⟨"A", "Alice", "#FF4444", false, true, 2, 7⟩ :=
  ⟨by decide,
   (win_check_after_attack lastStandState 0 1 "A" 1 1 (by decide)).1
     ⟨"A", "Alice", "#FF4444", false, true, 2, 7⟩ (by decide)⟩

/-! ## Claim C9 — the AI on zero or one legal attack -/

/-- Claim C9: if the candidate enumeration of `makeDecision` finds exactly
one legal attack (one pair of an owned territory with more than one troop
and a non-self-owned neighbour), difficulty `"easy"` returns exactly that
attack for every random draw `r ∈ [0, 1)`; if it finds none, or the
player owns no territories, `makeDecision` returns `null` for every
difficulty. -/
theorem makeDecision_spec :
    (∀ s playerId a r,
      AIBot.possibleAttacks s playerId (AIBot.getAggressiveness "easy") = some [a] →
      0 ≤ r → r < 1 → AIBot.makeDecision "easy" r s playerId = some (some a)) ∧
    (∀ s playerId d r,
      AIBot.possibleAttacks s playerId (AIBot.getAggressiveness d) = some [] →
      AIBot.makeDecision d r s playerId = some none) ∧
    (∀ s playerId d r,
      s.territories.filter (fun t => decide (t.owner = some playerId)) = [] →
      AIBot.makeDecision d r s playerId = some none) := by
  refine ⟨?_, ?_, ?_⟩
  · intro s playerId a r hpa hr0 hr1
    unfold AIBot.makeDecision
    by_cases ho : (s.territories.filter
        (fun t => decide (t.owner = some playerId))).isEmpty = true
    · exfalso
      have hempty : AIBot.possibleAttacks s playerId
          (AIBot.getAggressiveness "easy") = some [] := by
        unfold AIBot.possibleAttacks
        rw [List.isEmpty_iff.1 ho]
        rfl
      rw [hempty] at hpa
      injection hpa with h
      exact List.noConfusion h
    · rw [if_neg ho, hpa]
      have hfl : Rat.floor r = 0 := Int.floor_eq_zero_iff.2 (Set.mem_Ico.2 ⟨hr0, hr1⟩)
      simp [List.mergeSort_singleton, hfl]
  · intro s playerId d r hpa
    unfold AIBot.makeDecision
    by_cases ho : (s.territories.filter
        (fun t => decide (t.owner = some playerId))).isEmpty = true
    · rw [if_pos ho]
    · rw [if_neg ho, hpa]
      simp
  · intro s playerId d r h
    unfold AIBot.makeDecision
    rw [h]
    rfl

/-- One owned territory with one neutral neighbour: exactly one legal
attack, whose evaluated score is 31. -/
def singleLegalAttackState : GameState where
  territories := [⟨0, [⟨0, 0⟩], ⟨0, 0⟩, some "A", 5, [1]⟩,
                  ⟨1, [⟨1, 1⟩], ⟨3, 0⟩, none, 5, [0]⟩]
  players := [⟨"A", "Alice", "#FF4444", false, true, 1, 5⟩]
  currentTurn := 0
  turnTimeLimit := 45000
  turnStartTime := 0
  gamePhase := "playing"
  winner := none
  mapWidth := 1200
  mapHeight := 800
  territoryCount := 60
  troopGenerationRate := 1

theorem makeDecision_spec_witness :
    AIBot.makeDecision "easy" 0 singleLegalAttackState "A" =
      some (some ⟨0, 1, 31⟩) :=
  makeDecision_spec.1 singleLegalAttackState "A" ⟨0, 1, 31⟩ 0 (by decide)
    (by norm_num) (by norm_num)

/-! ## Claim C6 — structural invariants of generated maps -/

namespace MapGenerator

/-- Everything of a territory except its (mutable) neighbour list. -/
def coreOf (t : Territory) : ℕ × List Point × Point × Option String × ℕ :=
  (t.id, t.vertices, t.center, t.owner, t.troops)

theorem coreOf_addNeighbor (t : Territory) (n : ℕ) :
    coreOf (t.addNeighbor n) = coreOf t := by
  unfold Territory.addNeighbor coreOf
  split <;> rfl

theorem mem_addNeighbor (t : Territory) (n m : ℕ) :
    m ∈ (t.addNeighbor n).neighbors ↔ m ∈ t.neighbors ∨ m = n := by
  unfold Territory.addNeighbor
  split_ifs with h
  · constructor
    · exact Or.inl
    · rintro (hm | rfl)
      · exact hm
      · exact h
  · simp [List.mem_append]

theorem addNeighbor_ne_nil (t : Territory) (n : ℕ) :
    (t.addNeighbor n).neighbors ≠ [] := by
  unfold Territory.addNeighbor
  split_ifs with h
  · intro he
    rw [he] at h
    exact List.not_mem_nil n h
  · simp

theorem length_modifyAt (L : List Territory) (i : ℕ) (f : Territory → Territory) :
    (modifyAt L i f).length = L.length := by
  unfold modifyAt
  cases h : L.get? i
  · rfl
  · simp [List.length_set]

theorem get?_modifyAt_self (L : List Territory) (i : ℕ) (f : Territory → Territory)
    (t : Territory) (h : L.get? i = some t) :
    (modifyAt L i f).get? i = some (f t) := by
  unfold modifyAt
  rw [h]
  rcases List.get?_eq_some.1 h with ⟨hi, -⟩
  exact List.get?_set_eq_of_lt _ hi

theorem get?_modifyAt_ne (L : List Territory) (i j : ℕ) (f : Territory → Territory)
    (h : i ≠ j) : (modifyAt L i f).get? j = L.get? j := by
  unfold modifyAt
  cases h2 : L.get? i
  · rfl
  · exact List.get?_set_ne _ _ h

theorem modifyAt_of_none (L : List Territory) (i : ℕ) (f : Territory → Territory)
    (h : L.get? i = none) : modifyAt L i f = L := by
  unfold modifyAt
  rw [h]

theorem get?_addNeighborAt_self (L : List Territory) (i nid : ℕ) (t : Territory)
    (h : L.get? i = some t) :
    (addNeighborAt L i nid).get? i = some (t.addNeighbor nid) :=
  get?_modifyAt_self L i _ t h

theorem get?_addNeighborAt_ne (L : List Territory) (i j nid : ℕ) (h : i ≠ j) :
    (addNeighborAt L i nid).get? j = L.get? j :=
  get?_modifyAt_ne L i j _ h

/-- The `sameSkeleton L L2` relation: `L2` differs from `L` at most in
neighbour lists. -/
def sameSkeleton (L L2 : List Territory) : Prop :=
  L2.length = L.length ∧ ∀ i, (L2.get? i).map coreOf = (L.get? i).map coreOf

theorem sameSkeleton_refl (L : List Territory) : sameSkeleton L L :=
  ⟨rfl, fun _ => rfl⟩

theorem sameSkeleton_trans {L1 L2 L3 : List Territory}
    (h1 : sameSkeleton L1 L2) (h2 : sameSkeleton L2 L3) : sameSkeleton L1 L3 :=
  ⟨h2.1.trans h1.1, fun i => (h2.2 i).trans (h1.2 i)⟩

theorem sameSkeleton_addNeighborAt (L : List Territory) (i nid : ℕ) :
    sameSkeleton L (addNeighborAt L i nid) := by
  refine ⟨length_modifyAt L i _, fun j => ?_⟩
  by_cases hij : i = j
  · subst hij
    cases h : L.get? i
    · rw [show addNeighborAt L i nid = L from modifyAt_of_none L i _ h, h]
    · rw [get?_addNeighborAt_self L i nid _ h]
      simp [coreOf_addNeighbor]
  · rw [get?_addNeighborAt_ne L i j nid hij]

/-- Ids are positional: the territory stored at index `i` has id `i`. -/
def idsDense (L : List Territory) : Prop :=
  ∀ i t, L.get? i = some t → t.id = i

theorem idsDense_of_skeleton (L L2 : List Territory) (hs : sameSkeleton L L2)
    (hd : idsDense L) : idsDense L2 := by
  intro i t h2
  have hmap := hs.2 i
  rw [h2] at hmap
  rcases h : L.get? i with - | t0
  · rw [h] at hmap
    exact Option.noConfusion hmap
  · rw [h] at hmap
    injection hmap with hc
    have hid : t.id = t0.id := congrArg (fun c => c.1) hc
    rw [hid]
    exact hd i t0 h

/-- The adjacency relation stored in the lists is symmetric. -/
def neighborSymm (L : List Territory) : Prop :=
  ∀ i j ti tj, L.get? i = some ti → L.get? j = some tj →
    (j ∈ ti.neighbors ↔ i ∈ tj.neighbors)

theorem neighborSymm_addEdge (L : List Territory) (i j : ℕ) (ti tj : Territory)
    (hij : i ≠ j) (hi : L.get? i = some ti) (hj : L.get? j = some tj)
    (hs : neighborSymm L) :
    neighborSymm (addNeighborAt (addNeighborAt L i j) j i) := by
  have h1i : (addNeighborAt L i j).get? i = some (ti.addNeighbor j) :=
    get?_addNeighborAt_self L i j ti hi
  have h1j : (addNeighborAt L i j).get? j = some tj :=
    (get?_addNeighborAt_ne L i j j hij).trans hj
  have hchar : ∀ c, (addNeighborAt (addNeighborAt L i j) j i).get? c =
      if c = i then some (ti.addNeighbor j)
      else if c = j then some (tj.addNeighbor i)
      else L.get? c := by
    intro c
    by_cases hci : c = i
    · rw [if_pos hci, hci, get?_addNeighborAt_ne _ j i i (fun he => hij he.symm), h1i]
    · rw [if_neg hci]
      by_cases hcj : c = j
      · rw [if_pos hcj, hcj, get?_addNeighborAt_self _ j i tj h1j]
      · rw [if_neg hcj, get?_addNeighborAt_ne _ j c i (fun he => hcj he.symm),
          get?_addNeighborAt_ne _ i c j (fun he => hci he.symm)]
  intro a b ta tb ha hb
  rw [hchar a] at ha
  rw [hchar b] at hb
  by_cases hai : a = i
  · rw [if_pos hai] at ha
    injection ha with ha
    subst ha
    by_cases hbi : b = i
    · rw [if_pos hbi] at hb
      injection hb with hb
      subst hb
      rw [hai, hbi]
    · rw [if_neg hbi] at hb
      by_cases hbj : b = j
      · rw [if_pos hbj] at hb
        injection hb with hb
        subst hb
        rw [hai, hbj]
        simp [mem_addNeighbor]
      · rw [if_neg hbj] at hb
        rw [hai]
        simp only [mem_addNeighbor, hbj, or_false]
        exact hs i b ti tb hi hb
  · rw [if_neg hai] at ha
    by_cases haj : a = j
    · rw [if_pos haj] at ha
      injection ha with ha
      subst ha
      by_cases hbi : b = i
      · rw [if_pos hbi] at hb
        injection hb with hb
        subst hb
        rw [haj, hbi]
        simp [mem_addNeighbor]
      · rw [if_neg hbi] at hb
        by_cases hbj : b = j
        · rw [if_pos hbj] at hb
          injection hb with hb
          subst hb
          rw [haj, hbj]
        · rw [if_neg hbj] at hb
          rw [haj]
          simp only [mem_addNeighbor, hbi, or_false]
          exact hs j b tj tb hj hb
    · rw [if_neg haj] at ha
      by_cases hbi : b = i
      · rw [if_pos hbi] at hb
        injection hb with hb
        subst hb
        rw [hbi]
        simp only [mem_addNeighbor, haj, or_false]
        exact hs a i ta ti ha hi
      · rw [if_neg hbi] at hb
        by_cases hbj : b = j
        · rw [if_pos hbj] at hb
          injection hb with hb
          subst hb
          rw [hbj]
          simp only [mem_addNeighbor, hai, or_false]
          exact hs a j ta tj ha hj
        · rw [if_neg hbj] at hb
          exact hs a b ta tb ha hb

theorem neighborStep_skeleton (L : List Territory) (p : ℕ × ℕ) :
    sameSkeleton L (neighborStep L p) := by
  unfold neighborStep
  rcases h1 : L.get? p.1 with - | ti
  · exact sameSkeleton_refl L
  · rcases h2 : L.get? p.2 with - | tj
    · exact sameSkeleton_refl L
    · show sameSkeleton L (if distSq ti.center tj.center < 22500 then
        addNeighborAt (addNeighborAt L p.1 tj.id) p.2 ti.id else L)
      split_ifs with hdist
      · exact sameSkeleton_trans (sameSkeleton_addNeighborAt L p.1 tj.id)
          (sameSkeleton_addNeighborAt _ p.2 ti.id)
      · exact sameSkeleton_refl L

theorem neighborStep_symm (L : List Territory) (p : ℕ × ℕ) (hd : idsDense L)
    (hne : p.1 ≠ p.2) (hs : neighborSymm L) : neighborSymm (neighborStep L p) := by
  unfold neighborStep
  rcases h1 : L.get? p.1 with - | ti
  · exact hs
  · rcases h2 : L.get? p.2 with - | tj
    · exact hs
    · show neighborSymm (if distSq ti.center tj.center < 22500 then
        addNeighborAt (addNeighborAt L p.1 tj.id) p.2 ti.id else L)
      split_ifs with hdist
      · rw [hd p.1 ti h1, hd p.2 tj h2]
        exact neighborSymm_addEdge L p.1 p.2 ti tj hne h1 h2 hs
      · exact hs

theorem foldl_neighborStep_inv (ps : List (ℕ × ℕ)) : ∀ L, idsDense L → neighborSymm L →
    (∀ p ∈ ps, p.1 ≠ p.2) →
    sameSkeleton L (ps.foldl neighborStep L) ∧ idsDense (ps.foldl neighborStep L) ∧
      neighborSymm (ps.foldl neighborStep L) := by
  induction ps with
  | nil => exact fun L hd hs _ => ⟨sameSkeleton_refl L, hd, hs⟩
  | cons p ps ih =>
    intro L hd hs hp
    have h1 := neighborStep_skeleton L p
    have hd1 := idsDense_of_skeleton _ _ h1 hd
    have hs1 := neighborStep_symm L p hd (hp p (List.mem_cons_self p ps)) hs
    rcases ih (neighborStep L p) hd1 hs1 (fun q hq => hp q (List.mem_cons_of_mem p hq))
      with ⟨hskel, hd2, hs2⟩
    exact ⟨sameSkeleton_trans h1 hskel, hd2, hs2⟩

theorem pairsList_ne (n : ℕ) : ∀ p ∈ pairsList n, p.1 ≠ p.2 := by
  intro p hp
  unfold pairsList at hp
  rcases List.mem_flatMap.1 hp with ⟨i, hi, hmem⟩
  rcases List.mem_map.1 hmem with ⟨j, hj, rfl⟩
  have := List.mem_range'_1.1 hj
  show i ≠ j
  omega

/-- The fold step of `findClosest`, named for the proofs below. -/
def closestStep (t : Territory) (acc : Option (ℕ × ℚ)) (other : Territory) :
    Option (ℕ × ℚ) :=
  if other.id ≠ t.id then
    match acc with
    | none => some (other.id, distSq t.center other.center)
    | some best =>
      if distSq t.center other.center < best.2 then
        some (other.id, distSq t.center other.center)
      else acc
  else acc

theorem findClosest_eq (L : List Territory) (t : Territory) :
    findClosest L t = (L.foldl (closestStep t) none).map (fun best => best.1) := rfl

theorem findClosest_aux (t : Territory) :
    ∀ (l : List Territory) (acc : Option (ℕ × ℚ)) (b : ℕ × ℚ),
    l.foldl (closestStep t) acc = some b →
    acc = some b ∨ ∃ o ∈ l, o.id = b.1 ∧ o.id ≠ t.id := by
  intro l
  induction l with
  | nil => exact fun acc b h => Or.inl h
  | cons o l ih =>
    intro acc b h
    rw [List.foldl_cons] at h
    rcases ih _ b h with hstep | ⟨o2, ho2, hid⟩
    · unfold closestStep at hstep
      by_cases hne : o.id ≠ t.id
      · rw [if_pos hne] at hstep
        rcases acc with - | best
        · injection hstep with hstep
          exact Or.inr ⟨o, List.mem_cons_self o l, by rw [← hstep], hne⟩
        · replace hstep : (if distSq t.center o.center < best.2 then
              some (o.id, distSq t.center o.center) else some best) = some b := hstep
          split_ifs at hstep with hlt
          · injection hstep with hstep
            exact Or.inr ⟨o, List.mem_cons_self o l, by rw [← hstep], hne⟩
          · exact Or.inl hstep
      · rw [if_neg hne] at hstep
        exact Or.inl hstep
    · exact Or.inr ⟨o2, List.mem_cons_of_mem o ho2, hid⟩

theorem findClosest_spec (L : List Territory) (t : Territory) (cid : ℕ)
    (h : findClosest L t = some cid) :
    (∃ o ∈ L, o.id = cid) ∧ cid ≠ t.id := by
  rw [findClosest_eq] at h
  rcases Option.map_eq_some'.1 h with ⟨b, hb, hb1⟩
  rcases findClosest_aux t L none b hb with hn | ⟨o, ho, hid, hne⟩
  · exact Option.noConfusion hn
  · subst hb1
    exact ⟨⟨o, ho, hid⟩, hid ▸ hne⟩

theorem findClosest_isSome (L : List Territory) (t : Territory)
    (h : ∃ o ∈ L, o.id ≠ t.id) : ∃ c, findClosest L t = some c := by
  rw [findClosest_eq]
  have haux : ∀ (l : List Territory) (acc : Option (ℕ × ℚ)),
      ((∃ b, acc = some b) ∨ ∃ o ∈ l, o.id ≠ t.id) →
      ∃ b, l.foldl (closestStep t) acc = some b := by
    intro l
    induction l with
    | nil =>
      intro acc hd
      rcases hd with ⟨b, hb⟩ | ⟨o, ho, -⟩
      · exact ⟨b, hb⟩
      · exact absurd ho (List.not_mem_nil o)
    | cons o l ih =>
      intro acc hd
      rw [List.foldl_cons]
      apply ih
      unfold closestStep
      by_cases hne : o.id ≠ t.id
      · left
        rw [if_pos hne]
        rcases acc with - | best
        · exact ⟨_, rfl⟩
        · show ∃ b, (if distSq t.center o.center < best.2 then
            some (o.id, distSq t.center o.center) else some best) = some b
          split_ifs <;> exact ⟨_, rfl⟩
      · rw [if_neg hne]
        rcases hd with hb | ⟨o2, ho2, hid2⟩
        · exact Or.inl hb
        · rcases List.mem_cons.1 ho2 with rfl | ho2in
          · exact absurd hid2 hne
          · exact Or.inr ⟨o2, ho2in, hid2⟩
  rcases haux L none (Or.inr h) with ⟨b, hb⟩
  exact ⟨b.1, by rw [hb]; rfl⟩

theorem get?_addNeighborAt_grow (L : List Territory) (i nid a : ℕ) (ta2 : Territory)
    (h : (addNeighborAt L i nid).get? a = some ta2) :
    ∃ ta, L.get? a = some ta ∧ ∀ m ∈ ta.neighbors, m ∈ ta2.neighbors := by
  by_cases hai : i = a
  · subst hai
    rcases hk : L.get? i with - | t
    · rw [show addNeighborAt L i nid = L from modifyAt_of_none L i _ hk, hk] at h
      exact Option.noConfusion h
    · rw [get?_addNeighborAt_self L i nid t hk] at h
      injection h with h
      exact ⟨t, rfl, fun m hm => h ▸ (mem_addNeighbor t nid m).2 (Or.inl hm)⟩
  · rw [get?_addNeighborAt_ne L i a nid hai] at h
    exact ⟨ta2, h, fun m hm => hm⟩

theorem fallbackStep_eq_none (L : List Territory) (k : ℕ)
    (hk : L.get? k = none) : fallbackStep L k = L := by
  unfold fallbackStep
  rw [hk]

theorem fallbackStep_eq_some (L : List Territory) (k : ℕ) (t : Territory)
    (hk : L.get? k = some t) :
    fallbackStep L k = if t.neighbors.isEmpty then
      (match findClosest L t with
       | some closestId => addNeighborAt (addNeighborAt L k closestId) closestId t.id
       | none => L)
    else L := by
  unfold fallbackStep
  rw [hk]

theorem fallbackStep_skeleton (L : List Territory) (k : ℕ) :
    sameSkeleton L (fallbackStep L k) := by
  rcases hk : L.get? k with - | t
  · rw [fallbackStep_eq_none L k hk]
    exact sameSkeleton_refl L
  · rw [fallbackStep_eq_some L k t hk]
    split_ifs with hemp
    · rcases hfc : findClosest L t with - | cid
      · exact sameSkeleton_refl L
      · show sameSkeleton L (addNeighborAt (addNeighborAt L k cid) cid t.id)
        exact sameSkeleton_trans (sameSkeleton_addNeighborAt L k cid)
          (sameSkeleton_addNeighborAt _ cid t.id)
    · exact sameSkeleton_refl L

theorem fallbackStep_grows (L : List Territory) (k a : ℕ) (ta2 : Territory)
    (h : (fallbackStep L k).get? a = some ta2) :
    ∃ ta, L.get? a = some ta ∧ ∀ m ∈ ta.neighbors, m ∈ ta2.neighbors := by
  rcases hk : L.get? k with - | t
  · rw [fallbackStep_eq_none L k hk] at h
    exact ⟨ta2, h, fun m hm => hm⟩
  · rw [fallbackStep_eq_some L k t hk] at h
    split_ifs at h with hemp
    · rcases hfc : findClosest L t with - | cid
      · rw [hfc] at h
        exact ⟨ta2, h, fun m hm => hm⟩
      · rw [hfc] at h
        replace h : (addNeighborAt (addNeighborAt L k cid) cid t.id).get? a
            = some ta2 := h
        rcases get?_addNeighborAt_grow _ _ _ _ _ h with ⟨tb, hb, hg1⟩
        rcases get?_addNeighborAt_grow _ _ _ _ _ hb with ⟨ta, ha, hg2⟩
        exact ⟨ta, ha, fun m hm => hg1 m (hg2 m hm)⟩
    · exact ⟨ta2, h, fun m hm => hm⟩

theorem fallbackStep_establishes (L : List Territory) (k : ℕ) (hd : idsDense L)
    (h2 : 2 ≤ L.length) (hk : k < L.length) :
    ∃ t2, (fallbackStep L k).get? k = some t2 ∧ t2.neighbors ≠ [] := by
  rcases hkt : L.get? k with - | t
  · exact absurd (List.get?_eq_none.1 hkt) (by omega)
  · rw [fallbackStep_eq_some L k t hkt]
    by_cases hemp : t.neighbors.isEmpty = true
    · rw [if_pos hemp]
      have htid : t.id = k := hd k t hkt
      have hex : ∃ o ∈ L, o.id ≠ t.id := by
        rcases Nat.eq_zero_or_pos k with rfl | hkpos
        · rcases hget2 : L.get? 1 with - | o
          · exact absurd (List.get?_eq_none.1 hget2) (by omega)
          · exact ⟨o, List.get?_mem hget2, by rw [hd 1 o hget2, htid]; omega⟩
        · rcases hget2 : L.get? 0 with - | o
          · exact absurd (List.get?_eq_none.1 hget2) (by omega)
          · exact ⟨o, List.get?_mem hget2, by rw [hd 0 o hget2, htid]; omega⟩
      rcases findClosest_isSome L t hex with ⟨cid, hfc⟩
      rw [hfc]
      have hcne : cid ≠ t.id := (findClosest_spec L t cid hfc).2
      have hcnek : cid ≠ k := htid ▸ hcne
      show ∃ t2, (addNeighborAt (addNeighborAt L k cid) cid t.id).get? k
          = some t2 ∧ t2.neighbors ≠ []
      refine ⟨t.addNeighbor cid, ?_, addNeighbor_ne_nil t cid⟩
      rw [get?_addNeighborAt_ne _ cid k t.id hcnek,
        get?_addNeighborAt_self L k cid t hkt]
    · rw [if_neg hemp]
      exact ⟨t, hkt, fun he => hemp (List.isEmpty_iff.mpr he)⟩

theorem fallbackStep_symm (L : List Territory) (k : ℕ) (hd : idsDense L)
    (hs : neighborSymm L) : neighborSymm (fallbackStep L k) := by
  rcases hkt : L.get? k with - | t
  · rw [fallbackStep_eq_none L k hkt]
    exact hs
  · rw [fallbackStep_eq_some L k t hkt]
    split_ifs with hemp
    · rcases hfc : findClosest L t with - | cid
      · exact hs
      · show neighborSymm (addNeighborAt (addNeighborAt L k cid) cid t.id)
        rcases findClosest_spec L t cid hfc with ⟨⟨o, ho, hoid⟩, hcne⟩
        have htid : t.id = k := hd k t hkt
        rcases List.mem_iff_get?.1 ho with ⟨n, hn⟩
        have hcidn : cid = n := by rw [← hoid, hd n o hn]
        have hgetcid : L.get? cid = some o := by rw [hcidn]; exact hn
        have hknecid : k ≠ cid := fun he => (htid ▸ hcne) he.symm
        rw [htid]
        exact neighborSymm_addEdge L k cid t o hknecid hkt hgetcid hs
    · exact hs

theorem foldl_fallback_spec (ks : List ℕ) : ∀ (L : List Territory),
    idsDense L → neighborSymm L →
    sameSkeleton L (ks.foldl fallbackStep L) ∧ idsDense (ks.foldl fallbackStep L) ∧
    neighborSymm (ks.foldl fallbackStep L) ∧
    (∀ a ta0, L.get? a = some ta0 → ta0.neighbors ≠ [] →
      ∃ ta, (ks.foldl fallbackStep L).get? a = some ta ∧ ta.neighbors ≠ []) ∧
    (2 ≤ L.length → ∀ k ∈ ks, k < L.length →
      ∃ ta, (ks.foldl fallbackStep L).get? k = some ta ∧ ta.neighbors ≠ []) := by
  induction ks with
  | nil =>
    intro L hd hs
    exact ⟨sameSkeleton_refl L, hd, hs,
      fun a ta0 ha hne => ⟨ta0, ha, hne⟩,
      fun _ k hk => absurd hk (List.not_mem_nil k)⟩
  | cons k ks ih =>
    intro L hd hs
    have hsk := fallbackStep_skeleton L k
    have hd1 := idsDense_of_skeleton _ _ hsk hd
    have hs1 := fallbackStep_symm L k hd hs
    rcases ih (fallbackStep L k) hd1 hs1 with ⟨hskel, hd2, hs2, hgrow, hcover⟩
    have hstepup : ∀ a ta0, L.get? a = some ta0 → ta0.neighbors ≠ [] →
        ∃ ta, (fallbackStep L k).get? a = some ta ∧ ta.neighbors ≠ [] := by
      intro a ta0 ha hne
      rcases hstep : (fallbackStep L k).get? a with - | ta1
      · exfalso
        have hlt : a < L.length := (List.get?_eq_some.1 ha).1
        have := List.get?_eq_none.1 hstep
        rw [hsk.1] at this
        omega
      · rcases fallbackStep_grows L k a ta1 hstep with ⟨ta0b, hab, hg⟩
        rw [ha] at hab
        injection hab with hab
        rcases hx : ta0.neighbors with - | ⟨m, rest⟩
        · exact absurd hx hne
        · refine ⟨ta1, rfl, List.ne_nil_of_mem (hg m ?_)⟩
          rw [← hab, hx]
          exact List.mem_cons_self m rest
    refine ⟨sameSkeleton_trans hsk hskel, hd2, hs2, ?_, ?_⟩
    · intro a ta0 ha hne
      rcases hstepup a ta0 ha hne with ⟨ta1, h1, h1ne⟩
      exact hgrow a ta1 h1 h1ne
    · intro h2 k2 hk2mem hk2lt
      rcases List.mem_cons.1 hk2mem with rfl | hk2in
      · rcases fallbackStep_establishes L k2 hd h2 hk2lt with ⟨t2, hstep, hne⟩
        exact hgrow k2 t2 hstep hne
      · exact hcover (by rw [hsk.1]; exact h2) k2 hk2in (by rw [hsk.1]; exact hk2lt)

theorem calculateNeighbors_spec (ts : List Territory) (hd : idsDense ts)
    (hs : neighborSymm ts) :
    sameSkeleton ts (calculateNeighbors ts) ∧ idsDense (calculateNeighbors ts) ∧
    neighborSymm (calculateNeighbors ts) ∧
    (2 ≤ ts.length → ∀ a, a < ts.length →
      ∃ ta, (calculateNeighbors ts).get? a = some ta ∧ ta.neighbors ≠ []) := by
  unfold calculateNeighbors
  rcases foldl_neighborStep_inv (pairsList ts.length) ts hd hs (pairsList_ne _)
    with ⟨hsk1, hd1, hs1⟩
  rcases foldl_fallback_spec (List.range ts.length)
    ((pairsList ts.length).foldl neighborStep ts) hd1 hs1
    with ⟨hsk2, hd2, hs2, -, hcover⟩
  refine ⟨sameSkeleton_trans hsk1 hsk2, hd2, hs2, ?_⟩
  intro h2 a ha
  exact hcover (by rw [hsk1.1]; exact h2) a (List.mem_range.2 ha)
    (by rw [hsk1.1]; exact ha)

theorem createTerritories_get? (points : List Point) (w h : ℚ) (i : ℕ) :
    (createTerritories points w h).get? i = (points.get? i).map (fun p =>
      { id := i,
        vertices := extractBoundary points i (Int.ceil (w / 10)).toNat
          (Int.ceil (h / 10)).toNat,
        center := p, owner := none, troops := 10, neighbors := [] }) := by
  unfold createTerritories
  rw [List.get?_map, List.get?_enum]
  cases points.get? i <;> rfl

theorem createTerritories_length (points : List Point) (w h : ℚ) :
    (createTerritories points w h).length = points.length := by
  unfold createTerritories
  rw [List.length_map, List.enum_length]

theorem createTerritories_dense (points : List Point) (w h : ℚ) :
    idsDense (createTerritories points w h) := by
  intro i t ht
  rw [createTerritories_get?] at ht
  rcases hp : points.get? i with - | p
  · rw [hp] at ht
    exact Option.noConfusion ht
  · rw [hp] at ht
    injection ht with ht
    rw [← ht]

theorem createTerritories_fields (points : List Point) (w h : ℚ) (i : ℕ)
    (t : Territory) (ht : (createTerritories points w h).get? i = some t) :
    t.neighbors = [] ∧ t.vertices = extractBoundary points i
      (Int.ceil (w / 10)).toNat (Int.ceil (h / 10)).toNat := by
  rw [createTerritories_get?] at ht
  rcases hp : points.get? i with - | p
  · rw [hp] at ht
    exact Option.noConfusion ht
  · rw [hp] at ht
    injection ht with ht
    rw [← ht]
    exact ⟨rfl, rfl⟩

theorem createTerritories_symm (points : List Point) (w h : ℚ) :
    neighborSymm (createTerritories points w h) := by
  intro i j ti tj hi hj
  rw [(createTerritories_fields points w h i ti hi).1,
    (createTerritories_fields points w h j tj hj).1]
  simp

theorem scanFold_ne_nil (rest : List Point) : ∀ stack : List Point, stack ≠ [] →
    rest.foldl (fun hull p => p :: scanPop p hull) stack ≠ [] := by
  induction rest with
  | nil => exact fun stack h => h
  | cons p rest ih =>
    intro stack h
    rw [List.foldl_cons]
    exact ih _ (List.cons_ne_nil p _)

theorem convexHull_ne_nil (pts : List Point) (h : pts ≠ []) :
    convexHull pts ≠ [] := by
  by_cases hlen : pts.length < 3
  · unfold convexHull
    rw [if_pos hlen]
    exact h
  · have hbody : convexHull pts = (match pts.get? (lowestIdx pts) with
        | none => pts
        | some startPoint =>
          (match (pts.eraseIdx (lowestIdx pts)).mergeSort (polarLE startPoint) with
          | [] => [startPoint]
          | s0 :: rest =>
            ((rest.foldl (fun hull p => p :: scanPop p hull)
              [s0, startPoint])).reverse)) := by
      unfold convexHull
      rw [if_neg hlen]
    rw [hbody]
    rcases hg : pts.get? (lowestIdx pts) with - | sp
    · exact h
    · show (match (pts.eraseIdx (lowestIdx pts)).mergeSort (polarLE sp) with
        | [] => [sp]
        | s0 :: rest =>
          ((rest.foldl (fun hull p => p :: scanPop p hull) [s0, sp])).reverse) ≠ []
      rcases hs : (pts.eraseIdx (lowestIdx pts)).mergeSort (polarLE sp)
        with - | ⟨s0, rest⟩
      · exact List.cons_ne_nil sp []
      · intro hc
        replace hc : (rest.foldl (fun hull p => p :: scanPop p hull)
            [s0, sp]).reverse = [] := hc
        exact scanFold_ne_nil rest [s0, sp] (List.cons_ne_nil s0 [sp])
          (List.reverse_eq_nil_iff.1 hc)

theorem extractBoundary_ne_nil (points : List Point) (tid cols rows : ℕ) :
    extractBoundary points tid cols rows ≠ [] := by
  unfold extractBoundary
  show (if (boundaryVertices points tid cols rows).length > 8 then
      convexHull (boundaryVertices points tid cols rows)
    else if (boundaryVertices points tid cols rows).isEmpty then
      [⟨0, 0⟩, ⟨10, 0⟩, ⟨10, 10⟩, ⟨0, 10⟩]
    else boundaryVertices points tid cols rows) ≠ []
  split_ifs with h8 hemp
  · apply convexHull_ne_nil
    intro he
    rw [he] at h8
    simp at h8
  · exact List.cons_ne_nil _ _
  · intro he
    exact hemp (by rw [he]; rfl)

theorem generatePointsGo_length (count : ℕ) (w h : ℚ) (stream : ℕ → ℚ × ℚ) :
    ∀ (fuel k : ℕ) (acc pts : List Point),
    generatePointsGo count w h stream fuel k acc = some pts →
    acc.length ≤ count → pts.length = count := by
  intro fuel
  induction fuel with
  | zero =>
    intro k acc pts heq hle
    unfold generatePointsGo at heq
    by_cases hlt : acc.length < count
    · rw [if_pos hlt] at heq
      exact Option.noConfusion heq
    · rw [if_neg hlt] at heq
      injection heq with heq
      rw [← heq]
      omega
  | succ n ih =>
    intro k acc pts heq hle
    unfold generatePointsGo at heq
    by_cases hlt : acc.length < count
    · rw [if_pos hlt] at heq
      replace heq : (if ((acc.all fun q =>
            decide ¬ (distSq ⟨(stream k).1 * w, (stream k).2 * h⟩ q <
              minDistSq count w h)) || acc.isEmpty) = true
          then generatePointsGo count w h stream n (k + 1)
            (acc ++ [⟨(stream k).1 * w, (stream k).2 * h⟩])
          else generatePointsGo count w h stream n (k + 1) acc) = some pts := heq
      split_ifs at heq with hv
      · refine ih (k + 1) _ pts heq ?_
        rw [List.length_append]
        simp only [List.length_singleton]
        omega
      · exact ih (k + 1) acc pts heq (by omega)
    · rw [if_neg hlt] at heq
      injection heq with heq
      rw [← heq]
      omega

/-- Claim C6 (corrected): every map a terminating `generateMap` run
returns has exactly `count` territories whose ids equal their array
indices (a dense `0..count−1` range), every territory has a non-empty
vertex list, and adjacency is symmetric; every territory has at least one
neighbour PROVIDED `count ≥ 2` — with `count = 1` there is no other
territory for the fallback pass to connect to, so the claim fails at
`count = 1`. -/
theorem generateMap_invariants (fuel : ℕ) (stream : ℕ → ℚ × ℚ) (count : ℕ)
    (w h : ℚ) (ts : List Territory)
    (hgen : generateMap fuel stream count w h = some ts) :
    ts.length = count ∧
    (∀ i t, ts.get? i = some t → t.id = i) ∧
    (∀ t ∈ ts, t.vertices ≠ []) ∧
    (∀ i j ti tj, ts.get? i = some ti → ts.get? j = some tj →
      (j ∈ ti.neighbors ↔ i ∈ tj.neighbors)) ∧
    (2 ≤ count → ∀ t ∈ ts, t.neighbors ≠ []) := by
  unfold generateMap at hgen
  rcases hgp : generatePoints fuel stream count w h with - | pts
  · rw [hgp] at hgen
    exact Option.noConfusion hgen
  · rw [hgp] at hgen
    injection hgen with hgen
    subst hgen
    have hplen : pts.length = count :=
      generatePointsGo_length count w h stream fuel 0 [] pts hgp (by simp)
    have hctlen : (createTerritories pts w h).length = count := by
      rw [createTerritories_length, hplen]
    rcases calculateNeighbors_spec (createTerritories pts w h)
      (createTerritories_dense pts w h) (createTerritories_symm pts w h)
      with ⟨hskel, hd2, hs2, hcover⟩
    refine ⟨by rw [hskel.1, hctlen], hd2, ?_, ?_, ?_⟩
    · intro t hmem
      rcases List.mem_iff_get?.1 hmem with ⟨i, hi⟩
      have hcore := hskel.2 i
      rw [hi] at hcore
      rcases hct0 : (createTerritories pts w h).get? i with - | t0
      · rw [hct0] at hcore
        exact Option.noConfusion hcore
      · rw [hct0] at hcore
        injection hcore with hcore
        have hv : t.vertices = t0.vertices :=
          congrArg (fun c => c.2.1) hcore
        rw [hv, (createTerritories_fields pts w h i t0 hct0).2]
        exact extractBoundary_ne_nil pts i _ _
    · exact hs2
    · intro h2 t hmem
      rcases List.mem_iff_get?.1 hmem with ⟨i, hi⟩
      have hilt : i < (calculateNeighbors (createTerritories pts w h)).length :=
        (List.get?_eq_some.1 hi).1
      have hilt2 : i < (createTerritories pts w h).length := by
        rw [← hskel.1]
        exact hilt
      rcases hcover (by rw [hctlen]; exact h2) i hilt2 with ⟨ta, hta, hne⟩
      have := hi.symm.trans hta
      injection this with he
      rw [he]
      exact hne

end MapGenerator

/-- A random stream whose first draw is the corner `(0, 0)`. -/
def singleStream : ℕ → ℚ × ℚ := fun _ => (0, 0)

/-- Refutes claim C6 as stated at `count = 1`: the sole generated
territory ends with an empty neighbour list — the fallback pass finds no
other territory to connect it to. -/
theorem generateMap_single_no_neighbor :
    (MapGenerator.generateMap 1 singleStream 1 10 10).map
      (fun ts => ts.map Territory.neighbors) = some [[]] := by
  decide

/-- Two draws placing seeds at `(0,0)` and `(9,9)` on a 10×10 map. -/
def twoStream : ℕ → ℚ × ℚ := fun k => if k = 0 then (0, 0) else (9 / 10, 9 / 10)

/-- The concrete two-territory map produced by `twoStream`. -/
def twoMapResult : List Territory :=
  [⟨0, [⟨0, 0⟩, ⟨10, 0⟩, ⟨10, 10⟩, ⟨0, 10⟩], ⟨0, 0⟩, none, 10, [1]⟩,
   ⟨1, [⟨0, 0⟩], ⟨9, 9⟩, none, 10, [0]⟩]

theorem generateMap_invariants_witness :
    MapGenerator.generateMap 2 twoStream 2 10 10 = some twoMapResult ∧
    twoMapResult.length = 2 :=
  ⟨by decide,
   (MapGenerator.generateMap_invariants 2 twoStream 2 10 10 twoMapResult
     (by decide)).1⟩

end ConcreteEvaluations

end Dominion
